import Mathlib

/-!
# Verification of the multiplexer job-orchestration core

A shallow embedding, in Lean 4, of the job-orchestration engine of the
`multiplexer` repository (`src/src-tauri/src/`): the data model
(`models.rs`), the hierarchy-store operations (`models.rs`,
`commands.rs`, `poller.rs`), the persistence engine (`storage.rs`), the
retrying API client and archive extraction (`boltz.rs`).

Modelling conventions:
* Rust `Uuid` values are modelled as `Nat` (only equality is used).
* `chrono::DateTime<Utc>` is modelled as `Int`, a count of milliseconds;
  `chrono` durations compare at full precision, which integer
  milliseconds suffice to express for the thresholds in this code.
* `f64` values are modelled by `F64`, a wrapper around the 64-bit IEEE-754
  pattern; no claim depends on float arithmetic, only on which values are
  stored and that serialization is lossless (serde_json prints f64 with a
  shortest round-tripping representation).
* Fallible Rust functions return `Option` or `Except`.
-/

namespace Multiplexer

/-! ## Data model (`models.rs`) -/

/-- `models.rs` `JobStatus` (serde rename_all = SCREAMING_SNAKE_CASE). -/
inductive JobStatus where
  | Pending
  | Created
  | Running
  | Completed
  | Failed
  | TimedOut
  | Cancelled
deriving DecidableEq, Repr

/-- `JobStatus::is_terminal` from `models.rs`. -/
def JobStatus.is_terminal : JobStatus → Bool
  | .Completed | .Failed | .TimedOut | .Cancelled => true
  | _ => false

/-- An IEEE-754 double, identified by its 64-bit pattern.  No claim in this
development performs float arithmetic, so the pattern is kept abstract. -/
structure F64 where
  bits : Nat
deriving DecidableEq, Repr

/-- `models.rs` `AffinityMetrics`. -/
structure AffinityMetrics where
  binding_confidence : F64
  optimization_score : F64
deriving DecidableEq, Repr

/-- `models.rs` `SampleMetrics` (all fields `Option<f64>`, serde(default)). -/
structure SampleMetrics where
  structure_confidence : Option F64
  iptm : Option F64
  ligand_iptm : Option F64
  complex_plddt : Option F64
  ptm : Option F64
  protein_iptm : Option F64
  complex_iplddt : Option F64
  complex_pde : Option F64
  complex_ipde : Option F64
deriving DecidableEq, Repr

/-- `models.rs` `CompoundMetrics`. -/
structure CompoundMetrics where
  affinity : AffinityMetrics
  samples : List SampleMetrics
deriving DecidableEq, Repr

/-- `models.rs` `Compound`.  The `download_error` field is used by
`commands.rs` and `poller.rs` (`set_download_error`, `retry_compound`,
compound construction in `create_run`) but its declaration is not present
in the `models.rs` under `src/`; it is modelled from the spec:
"optional separate download-error message (kept distinct so a late
download failure does not overwrite a successful Completed prediction
status)". -/
structure Compound where
  id : Nat
  display_name : String
  folder_name : String
  smiles : String
  boltz_job_id : Option String
  status : JobStatus
  submitted_at : Option Int
  completed_at : Option Int
  metrics : Option CompoundMetrics
  error_message : Option String
  download_error : Option String
deriving DecidableEq, Repr

/-- `models.rs` `RunParams`. -/
structure RunParams where
  recycling_steps : Nat
  diffusion_samples : Nat
  sampling_steps : Nat
  step_scale : F64
deriving DecidableEq, Repr

/-- `models.rs` `Run`. -/
structure Run where
  id : Nat
  display_name : String
  folder_name : String
  archived : Bool
  archived_at : Option Int
  params : RunParams
  created_at : Int
  completed_at : Option Int
  compounds : List Compound
deriving DecidableEq, Repr

/-- `models.rs` `Campaign`. -/
structure Campaign where
  id : Nat
  display_name : String
  folder_name : String
  protein_sequence : String
  description : Option String
  archived : Bool
  archived_at : Option Int
  created_at : Int
  runs : List Run
deriving DecidableEq, Repr

/-- `models.rs` `AppData` (the persisted hierarchy). -/
structure AppData where
  schema_version : Nat
  api_key : Option String
  campaigns : List Campaign
deriving DecidableEq, Repr

/-- `impl Default for AppData` from `models.rs`. -/
def AppData.default : AppData :=
  { schema_version := 1, api_key := none, campaigns := [] }

/-- `models.rs` `CompoundRef` (projection used by the poller). -/
structure CompoundRef where
  compound_id : Nat
  boltz_job_id : String
  campaign_id : Nat
  run_id : Nat
  submitted_at : Int
deriving DecidableEq, Repr

/-- `models.rs` `RunCompletedEvent` payload. -/
structure RunCompletedEvent where
  run_id : Nat
  campaign_id : Nat
  run_name : String
  total_compounds : Nat
  completed_count : Nat
  failed_count : Nat
  timed_out_count : Nat
  cancelled_count : Nat
deriving DecidableEq, Repr

/-- `models.rs` `AppError`.  The `Http` variant records the optional HTTP
status carried by a `reqwest::Error` (`e.status()`). -/
inductive AppError where
  | Io (msg : String)
  | Serde (msg : String)
  | Http (status : Option Nat) (msg : String)
  | NotFound (msg : String)
  | Api (msg : String)
  | Other (msg : String)
deriving DecidableEq, Repr

/-- The `Display` implementation of `AppError` derived from the
`thiserror` attributes in `models.rs`. -/
def AppError.display : AppError → String
  | .Io m => "IO error: " ++ m
  | .Serde m => "Serialization error: " ++ m
  | .Http _ m => "HTTP error: " ++ m
  | .NotFound m => "Not found: " ++ m
  | .Api m => "API error: " ++ m
  | .Other m => m

/-! ## Hierarchy lookups and first-match mutation (`models.rs` helpers)

Rust's `find_*_mut` helpers walk the tree in order and mutate the first
entity with a matching id; they are modelled as first-match functional
updates. -/

/-- `AppData::find_compound`: first compound with the given id, in
traversal order (campaigns, then runs, then compounds). -/
def AppData.find_compound (d : AppData) (cid : Nat) : Option Compound :=
  d.campaigns.findSome? fun c =>
    c.runs.findSome? fun r =>
      r.compounds.find? fun x => x.id == cid

/-- `AppData::find_run` restricted to its result: the first run with the
given id together with its owning campaign (`find_run` and
`check_run_completion` traverse in the same order). -/
def AppData.find_run_context (d : AppData) (rid : Nat) : Option (Campaign × Run) :=
  d.campaigns.findSome? fun c =>
    (c.runs.find? fun r => r.id == rid).map fun r => (c, r)

/-- `AppData::find_run`. -/
def AppData.find_run (d : AppData) (rid : Nat) : Option Run :=
  (d.find_run_context rid).map Prod.snd

/-- First-match update of a compound inside one compound list. -/
def updateCompoundList (cid : Nat) (f : Compound → Compound) :
    List Compound → List Compound
  | [] => []
  | x :: xs =>
    if x.id == cid then f x :: xs else x :: updateCompoundList cid f xs

/-- Whether a run contains a compound with the given id. -/
def runHasCompound (r : Run) (cid : Nat) : Bool :=
  r.compounds.any fun x => x.id == cid

/-- First-match update of a compound inside one run list. -/
def updateCompoundRuns (cid : Nat) (f : Compound → Compound) :
    List Run → List Run
  | [] => []
  | r :: rs =>
    if runHasCompound r cid then
      { r with compounds := updateCompoundList cid f r.compounds } :: rs
    else r :: updateCompoundRuns cid f rs

/-- Whether a campaign contains a compound with the given id. -/
def campaignHasCompound (c : Campaign) (cid : Nat) : Bool :=
  c.runs.any fun r => runHasCompound r cid

/-- First-match update of a compound across the campaign list. -/
def updateCompoundCampaigns (cid : Nat) (f : Compound → Compound) :
    List Campaign → List Campaign
  | [] => []
  | c :: cs =>
    if campaignHasCompound c cid then
      { c with runs := updateCompoundRuns cid f c.runs } :: cs
    else c :: updateCompoundCampaigns cid f cs

/-- Functional counterpart of `AppData::find_compound_mut` followed by a
field mutation: update the first compound with the given id. -/
def AppData.updateCompound (d : AppData) (cid : Nat) (f : Compound → Compound) :
    AppData :=
  { d with campaigns := updateCompoundCampaigns cid f d.campaigns }

/-- First-match update of a run inside one run list. -/
def updateRunList (rid : Nat) (f : Run → Run) : List Run → List Run
  | [] => []
  | r :: rs => if r.id == rid then f r :: rs else r :: updateRunList rid f rs

/-- Whether a campaign contains a run with the given id. -/
def campaignHasRun (c : Campaign) (rid : Nat) : Bool :=
  c.runs.any fun r => r.id == rid

/-- First-match update of a run across the campaign list. -/
def updateRunCampaigns (rid : Nat) (f : Run → Run) :
    List Campaign → List Campaign
  | [] => []
  | c :: cs =>
    if campaignHasRun c rid then
      { c with runs := updateRunList rid f c.runs } :: cs
    else c :: updateRunCampaigns rid f cs

/-- Functional counterpart of `AppData::find_run_mut` followed by a field
mutation: update the first run with the given id. -/
def AppData.updateRun (d : AppData) (rid : Nat) (f : Run → Run) : AppData :=
  { d with campaigns := updateRunCampaigns rid f d.campaigns }

/-- `AppData::all_compounds_in_progress` from `models.rs`: a
`CompoundRef` for every non-terminal compound that has both a job id and
a submission time, in traversal order. -/
def AppData.all_compounds_in_progress (d : AppData) : List CompoundRef :=
  d.campaigns.flatMap fun c =>
    c.runs.flatMap fun r =>
      r.compounds.filterMap fun x =>
        if !x.status.is_terminal then
          match x.boltz_job_id, x.submitted_at with
          | some job_id, some submitted_at =>
            some { compound_id := x.id, boltz_job_id := job_id,
                   campaign_id := c.id, run_id := r.id,
                   submitted_at := submitted_at }
          | _, _ => none
        else none

/-- `AppData::check_run_completion` from `models.rs`: on the first run
with the given id, return `none` if `completed_at` is already set;
otherwise return the per-terminal-status counts when every compound is
terminal and the run is non-empty. -/
def AppData.check_run_completion (d : AppData) (rid : Nat) :
    Option RunCompletedEvent :=
  match d.find_run_context rid with
  | none => none
  | some (c, run) =>
    if run.completed_at.isSome then none
    else if run.compounds.all (fun x => x.status.is_terminal) &&
            !run.compounds.isEmpty then
      some { run_id := run.id
             campaign_id := c.id
             run_name := run.display_name
             total_compounds := run.compounds.length
             completed_count :=
               (run.compounds.filter fun x => x.status == .Completed).length
             failed_count :=
               (run.compounds.filter fun x => x.status == .Failed).length
             timed_out_count :=
               (run.compounds.filter fun x => x.status == .TimedOut).length
             cancelled_count :=
               (run.compounds.filter fun x => x.status == .Cancelled).length }
    else none

/-- The caller pattern used at every `check_run_completion` call site
(`poller.rs` and `commands.rs`): when the check returns an event, the
run's `completed_at` is set via `find_run_mut`. -/
def AppData.checkAndMarkRunCompletion (d : AppData) (rid : Nat) (now : Int) :
    Option RunCompletedEvent × AppData :=
  match d.check_run_completion rid with
  | none => (none, d)
  | some evt => (some evt, d.updateRun rid fun r => { r with completed_at := some now })

/-! ## JSON values

A model of `serde_json::Value`.  Numbers distinguish the integer and
floating representations that `serde_json::Number` keeps internally. -/

/-- A JSON value (`serde_json::Value`). -/
inductive Json where
  | null
  | bool (b : Bool)
  | num (n : Int)
  | float (f : F64)
  | str (s : String)
  | arr (xs : List Json)
  | obj (fields : List (String × Json))
deriving Repr

/-- First-match key lookup in an object field list. -/
def jLookup (k : String) : List (String × Json) → Option Json
  | [] => none
  | (k', v) :: rest => if k' == k then some v else jLookup k rest

/-- `Value::get(key)` from serde_json: member lookup on objects, `None`
on every other value. -/
def Json.get (j : Json) (k : String) : Option Json :=
  match j with
  | .obj fields => jLookup k fields
  | _ => none

/-- Modelled from serde_json's numeric semantics: `Value::as_f64`
converts an integer number to the nearest double; the integer-to-double
conversion is kept abstract behind an unspecified injection on the
values used here, since no claim depends on float arithmetic. -/
def F64.ofIntCast (i : Int) : F64 :=
  ⟨2 * i.natAbs + (if i < 0 then 1 else 0)⟩

/-- `Value::as_f64` from serde_json. -/
def Json.as_f64 (j : Json) : Option F64 :=
  match j with
  | .float f => some f
  | .num n => some (F64.ofIntCast n)
  | _ => none

/-- `Value::as_array` from serde_json. -/
def Json.as_array (j : Json) : Option (List Json) :=
  match j with
  | .arr xs => some xs
  | _ => none

/-! ## Remote API response types (`models.rs`) -/

/-- `models.rs` `PredictionOutput`. -/
structure PredictionOutput where
  download_url : Option String
  metrics : Option Json
deriving Repr

/-- `models.rs` `PredictionResults`. -/
structure PredictionResults where
  status : Option String
  processing_time_ms : Option Nat
  output : Option PredictionOutput
deriving Repr

/-- `models.rs` `PredictionStatus`. -/
structure PredictionStatus where
  prediction_id : String
  prediction_name : Option String
  prediction_status : String
  prediction_stage_description : Option String
  created_at : Option String
  updated_at : Option String
  prediction_results : Option PredictionResults
deriving Repr

/-! ## Metrics parsing (`boltz.rs` `parse_metrics`) -/

/-- `get_f64` from `boltz.rs`. -/
def get_f64 (value : Json) (key : String) : Option F64 :=
  (value.get key).bind Json.as_f64

/-- `parse_metrics` from `boltz.rs`: fails without `prediction_results`,
`output`, `metrics`, an `affinity` member, or a `sample_results` array;
numeric affinity fields default to 0.0 when absent or non-numeric. -/
def parse_metrics (prediction : PredictionStatus) :
    Except AppError CompoundMetrics := do
  let results ← match prediction.prediction_results with
    | some r => pure r
    | none => throw (.Other "No prediction results")
  let output ← match results.output with
    | some o => pure o
    | none => throw (.Other "No prediction output")
  let metrics_json ← match output.metrics with
    | some m => pure m
    | none => throw (.Other "No metrics in output")
  let affinity_json ← match metrics_json.get "affinity" with
    | some a => pure a
    | none => throw (.Other "No affinity metrics")
  let affinity : AffinityMetrics :=
    { binding_confidence :=
        ((affinity_json.get "binding_confidence").bind Json.as_f64).getD ⟨0⟩
      optimization_score :=
        ((affinity_json.get "optimization_score").bind Json.as_f64).getD ⟨0⟩ }
  let sample_results ← match (metrics_json.get "sample_results").bind Json.as_array with
    | some xs => pure xs
    | none => throw (.Other "No sample_results array")
  let samples : List SampleMetrics := sample_results.map fun s =>
    { structure_confidence := get_f64 s "structure_confidence"
      iptm := get_f64 s "iptm"
      ligand_iptm := get_f64 s "ligand_iptm"
      complex_plddt := get_f64 s "complex_plddt"
      ptm := get_f64 s "ptm"
      protein_iptm := get_f64 s "protein_iptm"
      complex_iplddt := get_f64 s "complex_iplddt"
      complex_pde := get_f64 s "complex_pde"
      complex_ipde := get_f64 s "complex_ipde" }
  return { affinity := affinity, samples := samples }

/-! ## Poller state transitions (`poller.rs`)

The poller's network and filesystem effects run outside the store lock;
the functions below model the in-memory hierarchy mutations it commits
while holding the lock. -/

/-- `POLL_TIMEOUT` (`poller.rs`): 2 hours, expressed in milliseconds
(`chrono` compares durations exactly; milliseconds suffice here). -/
def POLL_TIMEOUT_MS : Int := 7200000

/-- The fixed message written on a poll timeout (`poller.rs`). -/
def timeoutMessage : String := "Prediction timed out after 2 hours"

/-- The mutation applied to each timed-out compound in `poll_tick`. -/
def markTimedOut (now : Int) (c : Compound) : Compound :=
  { c with status := .TimedOut, completed_at := some now,
           error_message := some timeoutMessage }

/-- Keep the first occurrence of every id, in order — the
`HashSet`-based dedup of run ids in `poll_tick`. -/
def dedupFirst : List Nat → List Nat
  | [] => []
  | x :: xs => x :: (dedupFirst xs).filter (fun y => y != x)

/-- The lock-held phase of `poll_tick` (`poller.rs`): skip if no API key
is configured; snapshot in-progress refs; partition off those whose
elapsed time since submission strictly exceeds `POLL_TIMEOUT`; mark those
`TimedOut` in place; then run completion detection once per distinct
owning run.  (The subsequent bounded-concurrency remote polls are
modelled separately by `pollCompoundStep`.) -/
def pollTickTimeoutPhase (d : AppData) (now : Int) : AppData :=
  match d.api_key with
  | some k =>
    if k == "" then d
    else
      let refs := d.all_compounds_in_progress
      let timed_out := refs.filter fun r => now - r.submitted_at > POLL_TIMEOUT_MS
      let d1 := timed_out.foldl
        (fun acc r => acc.updateCompound r.compound_id (markTimedOut now)) d
      let runIds := dedupFirst (timed_out.map fun r => r.run_id)
      runIds.foldl (fun acc rid => (acc.checkAndMarkRunCompletion rid now).2) d1
  | none => d

/-- The lock-held mutation of `on_compound_completed` (`poller.rs`): set
the compound `Completed` with metrics and timestamp, then re-check run
completion.  Returns the new state and the run-completed event, if any. -/
def onCompoundCompleted (d : AppData) (ref : CompoundRef)
    (metrics : CompoundMetrics) (now : Int) :
    AppData × Option RunCompletedEvent :=
  let d1 := d.updateCompound ref.compound_id fun c =>
    { c with status := .Completed, completed_at := some now,
             metrics := some metrics }
  let (evt, d2) := d1.checkAndMarkRunCompletion ref.run_id now
  (d2, evt)

/-- The lock-held mutation of `on_compound_failed` (`poller.rs`). -/
def onCompoundFailed (d : AppData) (ref : CompoundRef)
    (final_status : JobStatus) (error_msg : String) (now : Int) :
    AppData × Option RunCompletedEvent :=
  let d1 := d.updateCompound ref.compound_id fun c =>
    { c with status := final_status, completed_at := some now,
             error_message := some error_msg }
  let (evt, d2) := d1.checkAndMarkRunCompletion ref.run_id now
  (d2, evt)

/-- Rust `str::to_uppercase` on the ASCII status strings used here. -/
def toUpperStr (s : String) : String := String.mk (s.data.map Char.toUpper)

/-- The state mutation performed by `poll_compound` (`poller.rs`) for one
compound, given the prediction record the remote service returned.
Matches on the upper-cased remote status: `COMPLETED` parses metrics and
on failure records a `Failed` transition with a parse-error message;
`FAILED` records the remote stage description (or a fallback);
`RUNNING`/`CREATED`/`PENDING` update the local status only when it
differs; anything else leaves the state untouched. -/
def pollCompoundStep (d : AppData) (ref : CompoundRef)
    (prediction : PredictionStatus) (now : Int) : AppData :=
  let api_status := toUpperStr prediction.prediction_status
  if api_status == "COMPLETED" then
    match parse_metrics prediction with
    | .error e =>
      (onCompoundFailed d ref .Failed
        ("Failed to parse metrics: " ++ e.display) now).1
    | .ok m => (onCompoundCompleted d ref m now).1
  else if api_status == "FAILED" then
    let desc := prediction.prediction_stage_description.getD "Unknown error"
    (onCompoundFailed d ref .Failed desc now).1
  else if api_status == "RUNNING" || api_status == "CREATED" ||
          api_status == "PENDING" then
    let new_status : JobStatus :=
      if api_status == "RUNNING" then .Running
      else if api_status == "CREATED" then .Created
      else .Pending
    match d.find_compound ref.compound_id with
    | some c =>
      if c.status ≠ new_status then
        d.updateCompound ref.compound_id fun x => { x with status := new_status }
      else d
    | none => d
  else d

/-- `set_download_error` (`poller.rs`): record a download-specific error
on a compound without changing its status. -/
def set_download_error (d : AppData) (cid : Nat) (error_msg : String) : AppData :=
  d.updateCompound cid fun c => { c with download_error := some error_msg }

/-- The distinct failure exits of `download_and_store` (`poller.rs`):
download, extraction, validation, destination-path resolution, parent
directory creation, and the final atomic move. -/
inductive DownloadFailure where
  | download (e : String)
  | extract (e : String)
  | validate (e : String)
  | resolvePath (e : String)
  | createDir (e : String)
  | finalMove
deriving DecidableEq, Repr

/-- The download-error message `download_and_store` records for each
failure exit. -/
def downloadFailureMessage : DownloadFailure → String
  | .download e => "Download failed: " ++ e
  | .extract e => "Extraction failed: " ++ e
  | .validate e => "Extraction validation failed: " ++ e
  | .resolvePath e => "Failed to resolve output path: " ++ e
  | .createDir e => "Failed to create output directory: " ++ e
  | .finalMove => "Failed to store compound files on disk"

/-- The hierarchy mutation `download_and_store` (`poller.rs`) commits
when any of its steps fails: every failure path calls
`set_download_error` with the corresponding message and returns. -/
def downloadAndStoreOnFailure (d : AppData) (cid : Nat)
    (failure : DownloadFailure) : AppData :=
  set_download_error d cid (downloadFailureMessage failure)

/-- The hierarchy mutation `download_and_store` commits on success:
clear any previous download error. -/
def downloadAndStoreOnSuccess (d : AppData) (cid : Nat) : AppData :=
  d.updateCompound cid fun c => { c with download_error := none }

/-! ## Request-handler mutations (`commands.rs`) -/

/-- `cancel_run` (`commands.rs`): on the first run with the given id,
transition every non-terminal compound to `Cancelled` with a completion
timestamp; if anything changed, re-check run completion.  An unknown run
id is an error (state unchanged). -/
def cancelRun (d : AppData) (rid : Nat) (now : Int) : AppData :=
  match d.find_run rid with
  | none => d
  | some run =>
    if run.compounds.any (fun c => !c.status.is_terminal) then
      let d1 := d.updateRun rid fun r =>
        { r with compounds := r.compounds.map fun c =>
            if !c.status.is_terminal then
              { c with status := .Cancelled, completed_at := some now }
            else c }
      (d1.checkAndMarkRunCompletion rid now).2
    else d

/-- The first lock-held section of `retry_compound` (`commands.rs`):
requires a configured API key and an existing compound in a terminal
status, then resets the compound to `Pending` with job id, timestamps,
metrics and both error fields cleared.  `none` models the error
returns.  Note: the run's `completed_at` is not touched. -/
def retryCompoundReset (d : AppData) (cid : Nat) : Option AppData :=
  match d.api_key with
  | none => none
  | some _ =>
    match d.find_compound cid with
    | none => none
    | some c =>
      if c.status.is_terminal then
        some (d.updateCompound cid fun x =>
          { x with status := .Pending, boltz_job_id := none,
                   submitted_at := none, completed_at := none,
                   metrics := none, error_message := none,
                   download_error := none })
      else none

/-- The second lock-held section of `retry_compound` (`commands.rs`):
commit the re-submission outcome. -/
def retryCompoundCommit (d : AppData) (cid : Nat)
    (result : Except AppError String) (now : Int) : AppData :=
  match result with
  | .ok prediction_id =>
    d.updateCompound cid fun c =>
      { c with boltz_job_id := some prediction_id, status := .Created,
               submitted_at := some now }
  | .error e =>
    d.updateCompound cid fun c =>
      { c with status := .Failed, completed_at := some now,
               error_message := some e.display }

/-- `unique_folder_name` (`commands.rs`): append `-2`, `-3`, … until the
name no longer collides.  The Rust loop is unbounded; at most
`existing.length + 1` candidate names can collide, so that much fuel
makes the model total without changing its value. -/
def uniqueFolderGo (base : String) (existing : List String) :
    Nat → String → Nat → String
  | 0, name, _ => name
  | fuel + 1, name, suffix =>
    if existing.contains name then
      uniqueFolderGo base existing fuel (base ++ "-" ++ toString suffix)
        (suffix + 1)
    else name

/-- `unique_folder_name` (`commands.rs`). -/
def unique_folder_name (base : String) (existing : List String) : String :=
  uniqueFolderGo base existing (existing.length + 1) base 2

/-! ## Retrying API client (`boltz.rs`) -/

/-- The needle occurs as a contiguous run of the haystack. -/
def charsContainsSub (needle : List Char) : List Char → Bool
  | [] => needle.isPrefixOf []
  | c :: t => needle.isPrefixOf (c :: t) || charsContainsSub needle t

/-- Rust `str::contains` with a string pattern: the needle occurs as a
contiguous substring of the haystack. -/
def containsSub (haystack needle : String) : Bool :=
  charsContainsSub needle.data haystack.data

/-- `is_permanent_error` (`boltz.rs`): an `Api` message is permanent when
it contains the substring "(400)", "(401)" or "(422)"; an `Http` error is
permanent when it carries a 4xx status other than 429. -/
def is_permanent_error (err : AppError) : Bool :=
  match err with
  | .Api msg =>
    containsSub msg "(400)" || containsSub msg "(401)" || containsSub msg "(422)"
  | .Http (some code) _ => 400 ≤ code && code < 500 && code != 429
  | _ => false

/-- The `Display` of `reqwest::StatusCode` (the `http` crate): decimal
code, a space, and the canonical reason phrase.  Reasons are listed for
the codes this development mentions. -/
def canonicalReason : Nat → String
  | 400 => "Bad Request"
  | 401 => "Unauthorized"
  | 404 => "Not Found"
  | 422 => "Unprocessable Entity"
  | 429 => "Too Many Requests"
  | 500 => "Internal Server Error"
  | _ => "<unknown status code>"

/-- `format!("{status}")` for a `reqwest::StatusCode`. -/
def statusDisplay (code : Nat) : String :=
  toString code ++ " " ++ canonicalReason code

/-- The error `submit_prediction` (`boltz.rs`) builds from a non-success
HTTP response: `AppError::Api(format!("Submit failed ({status}): {text}"))`. -/
def submitHttpError (code : Nat) (text : String) : AppError :=
  .Api ("Submit failed (" ++ statusDisplay code ++ "): " ++ text)

/-- The error `get_prediction_status` (`boltz.rs`) builds from a
non-success HTTP response. -/
def statusCheckHttpError (code : Nat) (text : String) : AppError :=
  .Api ("Status check failed (" ++ statusDisplay code ++ "): " ++ text)

/-- The backoff table of `with_retry` (`boltz.rs`). -/
def backoff_ms : List Nat := [1000, 2000]

/-- Outcome of a `with_retry` execution: the surfaced result, the number
of attempts made, and the sleep performed before each attempt (ms). -/
structure RetryOutcome (α : Type) where
  result : Except AppError α
  attempts : Nat
  delays : List Nat
deriving Repr

/-- The loop body of `with_retry` (`boltz.rs`).  `f attempt` is the
result of the wrapped network call on that attempt; `jitter attempt` is
the value `rand::thread_rng().gen_range(0..500)` drew before it. -/
def withRetryGo (f : Nat → Except AppError α) (jitter : Nat → Nat) :
    Nat → Nat → List Nat → AppError → RetryOutcome α
  | 0, attempt, delays, last_err => ⟨.error last_err, attempt, delays⟩
  | remaining + 1, attempt, delays, _ =>
    let delay := if attempt == 0 then 0
                 else backoff_ms.getD (attempt - 1) 0 + jitter attempt
    let delays := delays ++ [delay]
    match f attempt with
    | .ok v => ⟨.ok v, attempt + 1, delays⟩
    | .error e =>
      if is_permanent_error e then ⟨.error e, attempt + 1, delays⟩
      else withRetryGo f jitter remaining (attempt + 1) delays e

/-- `with_retry` (`boltz.rs`): 3 total attempts; no sleep before the
first, `backoff_ms[attempt-1]` plus jitter before the others; a permanent
error returns immediately; exhaustion surfaces the last transient error. -/
def with_retry (f : Nat → Except AppError α) (jitter : Nat → Nat) :
    RetryOutcome α :=
  withRetryGo f jitter 3 0 [] (.Other "No attempts made")

/-! ## Archive extraction (`boltz.rs` `extract_tar_gz`)

Paths are modelled as component lists; a `".."` component is Rust's
`Component::ParentDir`.  The temporary extraction directory is taken to
be absolute and canonical (it is freshly created under the root
directory, so `canonicalize` is the identity on it). -/

/-- Split a character list at every `'/'`. -/
def splitSlash : List Char → List Char → List String
  | [], acc => [String.mk acc.reverse]
  | c :: cs, acc =>
    if c == '/' then String.mk acc.reverse :: splitSlash cs []
    else splitSlash cs (c :: acc)

/-- Rust `Path::components()` on a relative path string: split on the
separator and drop empty and `"."` components. -/
def pathComponents (s : String) : List String :=
  (splitSlash s.data []).filter fun c => c != "" && c != "."

/-- One pass of Rust `str::replace`: replace every non-overlapping
occurrence of `pat`, left to right.  The fuel argument (instantiated
with the input length, which always suffices) makes the recursion
structural. -/
def replaceCharsGo (pat rep : List Char) : Nat → List Char → List Char
  | 0, s => s
  | _ + 1, [] => []
  | fuel + 1, c :: t =>
    if pat.isPrefixOf (c :: t) && !pat.isEmpty then
      rep ++ replaceCharsGo pat rep fuel (t.drop (pat.length - 1))
    else c :: replaceCharsGo pat rep fuel t

/-- Rust `str::replace`. -/
def replaceSub (s pat rep : String) : String :=
  String.mk (replaceCharsGo pat.data rep.data s.data.length s.data)

/-- The archive filename convention of `extract_tar_gz`
(`str::replace` applied twice). -/
def renameConvention (s : String) : String :=
  replaceSub (replaceSub s "_predicted_structure." "_structure.")
    "_pae_visualization." "_pae."

/-- Join path components back into the string
`PathBuf::to_string_lossy` produces on Unix. -/
def joinComponents (cs : List String) : String :=
  String.intercalate "/" cs

/-- Rust `Path::starts_with`: purely lexical component-prefix test (a
`".."` component is compared like any other, never resolved). -/
def pathStartsWith (p base : List String) : Bool :=
  base.isPrefixOf p

/-- Filesystem resolution of `".."` components, as the OS performs when
a path is actually opened: each `".."` removes the preceding component. -/
def resolveDotDot (p : List String) : List String :=
  p.foldl (fun acc c => if c == ".." then acc.dropLast else acc ++ [c]) []

/-- One archive entry, identified by its stored path. -/
structure TarEntry where
  path : String
deriving DecidableEq, Repr

/-- `extract_tar_gz` (`boltz.rs`) on already-decompressed entries:
entries with at most one component (the top-level directory) are
skipped; otherwise the top-level component is stripped, the filename
convention applied, the destination joined under `temp_dir`, and the
zip-slip check `dest.starts_with(canonical_temp)` evaluated before any
write.  The result is the list of filesystem locations written
(destination paths with `".."` resolved by the OS at write time). -/
def extract_tar_gz (entries : List TarEntry) (temp_dir : List String) :
    Except AppError (List (List String)) :=
  go entries []
where
  go : List TarEntry → List (List String) → Except AppError (List (List String))
    | [], written => .ok written.reverse
    | entry :: rest, written =>
      let components := pathComponents entry.path
      if components.length ≤ 1 then go rest written
      else
        let relative := components.drop 1
        let filename := renameConvention (joinComponents relative)
        let dest := temp_dir ++ pathComponents filename
        if !pathStartsWith dest temp_dir then
          .error (.Other ("Path traversal detected in archive entry: " ++ filename))
        else
          go rest (resolveDotDot dest :: written)

/-- `validate_extraction` (`boltz.rs`): the required files, relative to
the extraction directory. -/
def requiredExtractionFiles : List String := ["metrics.json", "sample_0_structure.cif"]

/-! ## Folder-name sanitisation (`models.rs` `sanitise_folder_name`)

Rust's `char::is_alphanumeric`, `str::to_lowercase` and byte-indexed
slicing are modelled exactly on the Basic Latin and Latin-1 Supplement
ranges (U+0000..U+00FF), which cover every character appearing in this
development; `s[..200]` panics when byte 200 is not a character
boundary, modelled by `none`. -/

/-- Rust `char::is_alphanumeric` (Unicode `Alphabetic` or `Nd`),
restricted to U+0000..U+00FF: ASCII alphanumerics, and every Latin-1
letter (U+00AA, U+00B5, U+00BA, U+00C0..U+00FF except the two signs
U+00D7 and U+00F7), plus the Latin-1 decimal-like characters are not
`Nd`, so nothing else qualifies. -/
def rustIsAlphanumeric (c : Char) : Bool :=
  c.isAlphanum ||
    (c.toNat == 0xAA || c.toNat == 0xB5 || c.toNat == 0xBA ||
     (0xC0 ≤ c.toNat && c.toNat ≤ 0xFF && c.toNat != 0xD7 && c.toNat != 0xF7))

/-- Rust `str::to_lowercase`, restricted to U+0000..U+00FF (where it is
a one-to-one character map): ASCII uppercase and the Latin-1 uppercase
range U+00C0..U+00DE (except U+00D7) shift down by 0x20. -/
def rustToLowercase (c : Char) : Char :=
  if c.isUpper then c.toLower
  else if 0xC0 ≤ c.toNat && c.toNat ≤ 0xDE && c.toNat != 0xD7 then
    Char.ofNat (c.toNat + 0x20)
  else c

/-- The UTF-8 byte length of a string, Rust `str::len`. -/
def utf8Len (cs : List Char) : Nat :=
  (cs.map Char.utf8Size).sum

/-- Byte-indexed prefix `s[..n]`: `none` models the Rust panic when `n`
is not a character boundary. -/
def takeBytes : List Char → Nat → Option (List Char)
  | _, 0 => some []
  | [], _ + 1 => none
  | c :: cs, n + 1 =>
    if c.utf8Size ≤ n + 1 then
      (takeBytes cs (n + 1 - c.utf8Size)).map (c :: ·)
    else none

/-- Rust `str::trim_matches('-')` on a character list. -/
def trimDashes (cs : List Char) : List Char :=
  ((cs.dropWhile (· == '-')).reverse.dropWhile (· == '-')).reverse

/-- Rust `str::trim_end_matches('-')`. -/
def trimEndDashes (cs : List Char) : List Char :=
  (cs.reverse.dropWhile (· == '-')).reverse

/-- `sanitise_folder_name` (`models.rs`): keep alphanumerics, `-` and
`_`, replace everything else with `-`; lowercase; trim leading/trailing
dashes; when the result exceeds 200 bytes, slice off the first 200 bytes
(`s[..200]`, which panics — `none` — off a character boundary) and trim
trailing dashes; an empty result becomes "unnamed". -/
def sanitise_folder_name (name : String) : Option String := do
  let s := name.data.map fun c =>
    if rustIsAlphanumeric c || c == '-' || c == '_' then c else '-'
  let s := s.map rustToLowercase
  let s := trimDashes s
  let s ←
    if utf8Len s > 200 then
      (takeBytes s 200).map trimEndDashes
    else
      some s
  return if s.isEmpty then "unnamed" else String.mk s

/-! ## Serde encoding of the hierarchy (`models.rs` derives)

`serde_json::to_string_pretty` / `from_str` round-trip JSON values
exactly (f64 uses a shortest round-tripping representation, timestamps
and uuids print and re-parse losslessly), so the text layer is modelled
by the `Json` value itself and on-disk files store `Json` values.
Encoders follow the derived `Serialize` impls: every field is emitted,
`Option::None` as `null`.  Decoders follow the derived `Deserialize`
impls: fields are looked up by name, a required field that is missing
fails, and `SampleMetrics` (`serde(default)`) falls back to defaults. -/

/-- Encode an optional string. -/
def encOptStr : Option String → Json
  | none => .null
  | some s => .str s

/-- Decode an optional string. -/
def decOptStr : Json → Option (Option String)
  | .null => some none
  | .str s => some (some s)
  | _ => none

/-- Encode an optional timestamp. -/
def encOptTime : Option Int → Json
  | none => .null
  | some t => .num t

/-- Decode an optional timestamp. -/
def decOptTime : Json → Option (Option Int)
  | .null => some none
  | .num t => some (some t)
  | _ => none

/-- Decode a timestamp. -/
def decTime : Json → Option Int
  | .num t => some t
  | _ => none

/-- Decode an id. -/
def decId : Json → Option Nat
  | .num t => t.toNat'
  | _ => none

/-- Decode a `u32`. -/
def decU32 : Json → Option Nat
  | .num t => t.toNat'
  | _ => none

/-- Decode a `bool`. -/
def decBool : Json → Option Bool
  | .bool b => some b
  | _ => none

/-- Decode an `f64`. -/
def decF64 : Json → Option F64
  | .float f => some f
  | .num n => some (F64.ofIntCast n)
  | _ => none

/-- Encode an optional `f64`. -/
def encOptF64 : Option F64 → Json
  | none => .null
  | some f => .float f

/-- Decode an optional `f64`. -/
def decOptF64 : Json → Option (Option F64)
  | .null => some none
  | .float f => some (some f)
  | .num n => some (some (F64.ofIntCast n))
  | _ => none

/-- Encode `JobStatus` (serde rename_all = SCREAMING_SNAKE_CASE). -/
def encStatus : JobStatus → Json
  | .Pending => .str "PENDING"
  | .Created => .str "CREATED"
  | .Running => .str "RUNNING"
  | .Completed => .str "COMPLETED"
  | .Failed => .str "FAILED"
  | .TimedOut => .str "TIMED_OUT"
  | .Cancelled => .str "CANCELLED"

/-- Decode `JobStatus`. -/
def decStatus : Json → Option JobStatus
  | .str "PENDING" => some .Pending
  | .str "CREATED" => some .Created
  | .str "RUNNING" => some .Running
  | .str "COMPLETED" => some .Completed
  | .str "FAILED" => some .Failed
  | .str "TIMED_OUT" => some .TimedOut
  | .str "CANCELLED" => some .Cancelled
  | _ => none

/-- Decode each element of a JSON array (`Vec<T>` deserialization). -/
def decList (dec : Json → Option α) : List Json → Option (List α)
  | [] => some []
  | j :: js => do
    let x ← dec j
    let xs ← decList dec js
    return x :: xs

/-- Encode `SampleMetrics`. -/
def encSample (s : SampleMetrics) : Json :=
  .obj [("structure_confidence", encOptF64 s.structure_confidence),
        ("iptm", encOptF64 s.iptm),
        ("ligand_iptm", encOptF64 s.ligand_iptm),
        ("complex_plddt", encOptF64 s.complex_plddt),
        ("ptm", encOptF64 s.ptm),
        ("protein_iptm", encOptF64 s.protein_iptm),
        ("complex_iplddt", encOptF64 s.complex_iplddt),
        ("complex_pde", encOptF64 s.complex_pde),
        ("complex_ipde", encOptF64 s.complex_ipde)]

/-- Decode `SampleMetrics` (`serde(default)`: missing fields default to
`None`). -/
def decSample (j : Json) : Option SampleMetrics :=
  match j with
  | .obj fields => do
    let dec := fun k => match jLookup k fields with
      | none => some none
      | some v => decOptF64 v
    let structure_confidence ← dec "structure_confidence"
    let iptm ← dec "iptm"
    let ligand_iptm ← dec "ligand_iptm"
    let complex_plddt ← dec "complex_plddt"
    let ptm ← dec "ptm"
    let protein_iptm ← dec "protein_iptm"
    let complex_iplddt ← dec "complex_iplddt"
    let complex_pde ← dec "complex_pde"
    let complex_ipde ← dec "complex_ipde"
    return { structure_confidence, iptm, ligand_iptm, complex_plddt, ptm,
             protein_iptm, complex_iplddt, complex_pde, complex_ipde }
  | _ => none

/-- Encode `AffinityMetrics`. -/
def encAffinity (a : AffinityMetrics) : Json :=
  .obj [("binding_confidence", .float a.binding_confidence),
        ("optimization_score", .float a.optimization_score)]

/-- Decode `AffinityMetrics`. -/
def decAffinity (j : Json) : Option AffinityMetrics :=
  match j with
  | .obj fields => do
    let binding_confidence ← (jLookup "binding_confidence" fields).bind decF64
    let optimization_score ← (jLookup "optimization_score" fields).bind decF64
    return { binding_confidence, optimization_score }
  | _ => none

/-- Encode `CompoundMetrics`. -/
def encMetrics (m : CompoundMetrics) : Json :=
  .obj [("affinity", encAffinity m.affinity),
        ("samples", .arr (m.samples.map encSample))]

/-- Decode `CompoundMetrics`. -/
def decMetrics (j : Json) : Option CompoundMetrics :=
  match j with
  | .obj fields => do
    let affinity ← (jLookup "affinity" fields).bind decAffinity
    let samplesJson ← (jLookup "samples" fields).bind Json.as_array
    let samples ← decList decSample samplesJson
    return { affinity, samples }
  | _ => none

/-- Encode `Option<CompoundMetrics>`. -/
def encOptMetrics : Option CompoundMetrics → Json
  | none => .null
  | some m => encMetrics m

/-- Decode `Option<CompoundMetrics>`. -/
def decOptMetrics : Json → Option (Option CompoundMetrics)
  | .null => some none
  | j => (decMetrics j).map some

/-- Encode `Compound`. -/
def encCompound (c : Compound) : Json :=
  .obj [("id", .num c.id),
        ("display_name", .str c.display_name),
        ("folder_name", .str c.folder_name),
        ("smiles", .str c.smiles),
        ("boltz_job_id", encOptStr c.boltz_job_id),
        ("status", encStatus c.status),
        ("submitted_at", encOptTime c.submitted_at),
        ("completed_at", encOptTime c.completed_at),
        ("metrics", encOptMetrics c.metrics),
        ("error_message", encOptStr c.error_message),
        ("download_error", encOptStr c.download_error)]

/-- Decode `Compound`. -/
def decCompound (j : Json) : Option Compound :=
  match j with
  | .obj fields => do
    let id ← (jLookup "id" fields).bind decId
    let display_name ← (jLookup "display_name" fields).bind fun v =>
      match v with | .str s => some s | _ => none
    let folder_name ← (jLookup "folder_name" fields).bind fun v =>
      match v with | .str s => some s | _ => none
    let smiles ← (jLookup "smiles" fields).bind fun v =>
      match v with | .str s => some s | _ => none
    let boltz_job_id ← (jLookup "boltz_job_id" fields).bind decOptStr
    let status ← (jLookup "status" fields).bind decStatus
    let submitted_at ← (jLookup "submitted_at" fields).bind decOptTime
    let completed_at ← (jLookup "completed_at" fields).bind decOptTime
    let metrics ← (jLookup "metrics" fields).bind decOptMetrics
    let error_message ← (jLookup "error_message" fields).bind decOptStr
    let download_error ← (jLookup "download_error" fields).bind decOptStr
    return { id, display_name, folder_name, smiles, boltz_job_id, status,
             submitted_at, completed_at, metrics, error_message,
             download_error }
  | _ => none

/-- Encode `RunParams`. -/
def encParams (p : RunParams) : Json :=
  .obj [("recycling_steps", .num p.recycling_steps),
        ("diffusion_samples", .num p.diffusion_samples),
        ("sampling_steps", .num p.sampling_steps),
        ("step_scale", .float p.step_scale)]

/-- Decode `RunParams`. -/
def decParams (j : Json) : Option RunParams :=
  match j with
  | .obj fields => do
    let recycling_steps ← (jLookup "recycling_steps" fields).bind decU32
    let diffusion_samples ← (jLookup "diffusion_samples" fields).bind decU32
    let sampling_steps ← (jLookup "sampling_steps" fields).bind decU32
    let step_scale ← (jLookup "step_scale" fields).bind decF64
    return { recycling_steps, diffusion_samples, sampling_steps, step_scale }
  | _ => none

/-- Encode `Run`. -/
def encRun (r : Run) : Json :=
  .obj [("id", .num r.id),
        ("display_name", .str r.display_name),
        ("folder_name", .str r.folder_name),
        ("archived", .bool r.archived),
        ("archived_at", encOptTime r.archived_at),
        ("params", encParams r.params),
        ("created_at", .num r.created_at),
        ("completed_at", encOptTime r.completed_at),
        ("compounds", .arr (r.compounds.map encCompound))]

/-- Decode `Run`. -/
def decRun (j : Json) : Option Run :=
  match j with
  | .obj fields => do
    let id ← (jLookup "id" fields).bind decId
    let display_name ← (jLookup "display_name" fields).bind fun v =>
      match v with | .str s => some s | _ => none
    let folder_name ← (jLookup "folder_name" fields).bind fun v =>
      match v with | .str s => some s | _ => none
    let archived ← (jLookup "archived" fields).bind decBool
    let archived_at ← (jLookup "archived_at" fields).bind decOptTime
    let params ← (jLookup "params" fields).bind decParams
    let created_at ← (jLookup "created_at" fields).bind decTime
    let completed_at ← (jLookup "completed_at" fields).bind decOptTime
    let compoundsJson ← (jLookup "compounds" fields).bind Json.as_array
    let compounds ← decList decCompound compoundsJson
    return { id, display_name, folder_name, archived, archived_at, params,
             created_at, completed_at, compounds }
  | _ => none

/-- Encode `Campaign`. -/
def encCampaign (c : Campaign) : Json :=
  .obj [("id", .num c.id),
        ("display_name", .str c.display_name),
        ("folder_name", .str c.folder_name),
        ("protein_sequence", .str c.protein_sequence),
        ("description", encOptStr c.description),
        ("archived", .bool c.archived),
        ("archived_at", encOptTime c.archived_at),
        ("created_at", .num c.created_at),
        ("runs", .arr (c.runs.map encRun))]

/-- Decode `Campaign`. -/
def decCampaign (j : Json) : Option Campaign :=
  match j with
  | .obj fields => do
    let id ← (jLookup "id" fields).bind decId
    let display_name ← (jLookup "display_name" fields).bind fun v =>
      match v with | .str s => some s | _ => none
    let folder_name ← (jLookup "folder_name" fields).bind fun v =>
      match v with | .str s => some s | _ => none
    let protein_sequence ← (jLookup "protein_sequence" fields).bind fun v =>
      match v with | .str s => some s | _ => none
    let description ← (jLookup "description" fields).bind decOptStr
    let archived ← (jLookup "archived" fields).bind decBool
    let archived_at ← (jLookup "archived_at" fields).bind decOptTime
    let created_at ← (jLookup "created_at" fields).bind decTime
    let runsJson ← (jLookup "runs" fields).bind Json.as_array
    let runs ← decList decRun runsJson
    return { id, display_name, folder_name, protein_sequence, description,
             archived, archived_at, created_at, runs }
  | _ => none

/-- Encode `AppData`. -/
def encAppData (d : AppData) : Json :=
  .obj [("schema_version", .num d.schema_version),
        ("api_key", encOptStr d.api_key),
        ("campaigns", .arr (d.campaigns.map encCampaign))]

/-- Decode `AppData`. -/
def decAppData (j : Json) : Option AppData :=
  match j with
  | .obj fields => do
    let schema_version ← (jLookup "schema_version" fields).bind decU32
    let api_key ← (jLookup "api_key" fields).bind decOptStr
    let campaignsJson ← (jLookup "campaigns" fields).bind Json.as_array
    let campaigns ← decList decCampaign campaignsJson
    return { schema_version, api_key, campaigns }
  | _ => none

/-! ## Persistence engine (`storage.rs`)

The filesystem is a path-indexed store of serialized values; reads see
the most recent write of a path. -/

/-- A flat filesystem: most recent write first. -/
structure FileSys where
  files : List (String × Json)
deriving Repr

/-- Read a file. -/
def FileSys.read (fs : FileSys) (path : String) : Option Json :=
  (fs.files.find? fun kv => kv.1 == path).map Prod.snd

/-- Write (create or overwrite) a file. -/
def FileSys.write (fs : FileSys) (path : String) (content : Json) : FileSys :=
  ⟨(path, content) :: fs.files⟩

/-- Remove a file. -/
def FileSys.remove (fs : FileSys) (path : String) : FileSys :=
  ⟨fs.files.filter fun kv => kv.1 != path⟩

/-- `std::fs::rename`: atomic; no effect if the source does not exist
(the real call errors, which `persist_state` would surface — the source
always exists on `persist_state`'s path). -/
def FileSys.rename (fs : FileSys) (src dst : String) : FileSys :=
  match fs.read src with
  | none => fs
  | some content => ((fs.remove src).remove dst).write dst content

/-- `models.rs` `AppState` (runtime wrapper; `dirty` is not persisted). -/
structure AppState where
  data : AppData
  dirty : Bool
  root_dir : String

/-- `persist_state` (`storage.rs`): serialize to `.state.json.tmp` in
the root directory, then atomically rename over `state.json`. -/
def persist_state (fs : FileSys) (root_dir : String) (data : AppData) :
    FileSys :=
  let state_path := root_dir ++ "/state.json"
  let tmp_path := root_dir ++ "/.state.json.tmp"
  (fs.write tmp_path (encAppData data)).rename tmp_path state_path

/-- `load_state` (`storage.rs`): if `state.json` exists, copy it to
`state.json.bak` (best effort) and parse it — a parse failure is an
error; otherwise return the default state.  Returns the resulting
`AppState` together with the filesystem after the backup copy. -/
def load_state (fs : FileSys) (root_dir : String) :
    Except AppError (AppState × FileSys) :=
  let state_path := root_dir ++ "/state.json"
  match fs.read state_path with
  | some content =>
    let bak_path := root_dir ++ "/state.json.bak"
    let fs1 := fs.write bak_path content
    match decAppData content with
    | some data => .ok ({ data, dirty := false, root_dir }, fs1)
    | none => .error (.Serde "invalid state.json")
  | none => .ok ({ data := AppData.default, dirty := false, root_dir }, fs)

/-! ## Derived state predicates and sample data

`runCompletedInvB` is C3's invariant; the sample values are concrete
hierarchies used to instantiate theorems with hypotheses. -/

def runTerminalOk (r : Run) : Bool :=
  r.completed_at.isNone || r.compounds.all fun x => x.status.is_terminal

def runCompletedInvB (d : AppData) : Bool :=
  d.campaigns.all fun c => c.runs.all runTerminalOk

def preservesCompletedAt (d d' : AppData) : Prop :=
  ∀ rid t, (d.find_run rid).map Run.completed_at = some (some t) →
    (d'.find_run rid).map Run.completed_at = some (some t)

def sampleCompound : Compound :=
  { id := 3, display_name := "m1", folder_name := "m1", smiles := "CCO",
    boltz_job_id := some "job-1", status := .Completed, submitted_at := some 1,
    completed_at := some 4, metrics := none, error_message := none,
    download_error := none }

def sampleRun : Run :=
  { id := 2, display_name := "r1", folder_name := "r1", archived := false,
    archived_at := none,
    params := { recycling_steps := 3, diffusion_samples := 1,
                sampling_steps := 200, step_scale := ⟨0⟩ },
    created_at := 0, completed_at := some 5, compounds := [sampleCompound] }

def sampleData : AppData :=
  { schema_version := 1, api_key := some "key",
    campaigns := [{ id := 1, display_name := "c1", folder_name := "c1",
                    protein_sequence := "MGT", description := none,
                    archived := false, archived_at := none, created_at := 0,
                    runs := [sampleRun] }] }

def sampleRef : CompoundRef :=
  { compound_id := 3, boltz_job_id := "job-1", campaign_id := 1, run_id := 2,
    submitted_at := 1 }

def freshRun : Run :=
  { id := 2, display_name := "r1", folder_name := "r1", archived := false,
    archived_at := none,
    params := { recycling_steps := 3, diffusion_samples := 1,
                sampling_steps := 200, step_scale := ⟨0⟩ },
    created_at := 0, completed_at := none,
    compounds := [sampleCompound,
      { sampleCompound with id := 4, status := .Failed }] }

def freshCampaign : Campaign :=
  { id := 1, display_name := "c1", folder_name := "c1",
    protein_sequence := "MGT", description := none, archived := false,
    archived_at := none, created_at := 0, runs := [freshRun] }

def freshData : AppData :=
  { schema_version := 1, api_key := some "key", campaigns := [freshCampaign] }

def allCompounds (d : AppData) : List Compound :=
  d.campaigns.flatMap fun c => c.runs.flatMap fun r => r.compounds

def c5Compound : Compound :=
  { id := 7, display_name := "m7", folder_name := "m7", smiles := "CCN",
    boltz_job_id := some "job-7", status := .Running, submitted_at := some 100,
    completed_at := none, metrics := none, error_message := none,
    download_error := none }

def c5Data : AppData :=
  { schema_version := 1, api_key := some "key",
    campaigns := [{ id := 1, display_name := "c1", folder_name := "c1",
                    protein_sequence := "MGT", description := none,
                    archived := false, archived_at := none, created_at := 0,
                    runs := [{ id := 2, display_name := "r1", folder_name := "r1",
                               archived := false, archived_at := none,
                               params := { recycling_steps := 3,
                                           diffusion_samples := 1,
                                           sampling_steps := 200,
                                           step_scale := ⟨0⟩ },
                               created_at := 0, completed_at := none,
                               compounds := [c5Compound] }] }] }

def c6Prediction : PredictionStatus :=
  { prediction_id := "job-7", prediction_name := none,
    prediction_status := "completed", prediction_stage_description := none,
    created_at := none, updated_at := none,
    prediction_results := some
      { status := some "ok", processing_time_ms := some 12,
        output := some
          { download_url := some "https://x/y.tar.gz",
            metrics := some (.obj [("sample_results", .arr [])]) } } }

def c6Ref : CompoundRef :=
  { compound_id := 7, boltz_job_id := "job-7", campaign_id := 1, run_id := 2,
    submitted_at := 100 }

/-! ## Round-trip lemmas for the serde encoding -/

theorem decOptStr_enc (x : Option String) : decOptStr (encOptStr x) = some x := by
  cases x <;> rfl

theorem decOptTime_enc (x : Option Int) : decOptTime (encOptTime x) = some x := by
  cases x <;> rfl

theorem decOptF64_enc (x : Option F64) : decOptF64 (encOptF64 x) = some x := by
  cases x <;> rfl

theorem decStatus_enc (s : JobStatus) : decStatus (encStatus s) = some s := by
  cases s <;> rfl

theorem decList_enc (dec : Json → Option α) (enc : α → Json)
    (h : ∀ x, dec (enc x) = some x) (xs : List α) :
    decList dec (xs.map enc) = some xs := by
  induction xs with
  | nil => rfl
  | cons x xs ih => simp [decList, h, ih]

theorem decSample_enc (s : SampleMetrics) : decSample (encSample s) = some s := by
  obtain ⟨a, b, c, d, e, f, g, h, i⟩ := s
  simp only [decSample, encSample, jLookup]
  simp [decOptF64_enc]

theorem decAffinity_enc (a : AffinityMetrics) : decAffinity (encAffinity a) = some a := by
  rfl

theorem decMetrics_enc (m : CompoundMetrics) : decMetrics (encMetrics m) = some m := by
  obtain ⟨aff, samples⟩ := m
  show (decList decSample (samples.map encSample)).bind
      (fun ss => some (CompoundMetrics.mk aff ss)) = some (CompoundMetrics.mk aff samples)
  rw [decList_enc decSample encSample decSample_enc]
  rfl

theorem decOptMetrics_enc (m : Option CompoundMetrics) :
    decOptMetrics (encOptMetrics m) = some m := by
  cases m with
  | none => rfl
  | some m =>
    show (decMetrics (encMetrics m)).map some = some (some m)
    rw [decMetrics_enc]
    rfl

theorem decCompound_enc (c : Compound) : decCompound (encCompound c) = some c := by
  obtain ⟨id, dn, fn, sm, jid, st, sub, comp, met, em, de⟩ := c
  show ((decOptStr (encOptStr jid)).bind fun jid' =>
        (decStatus (encStatus st)).bind fun st' =>
        (decOptTime (encOptTime sub)).bind fun sub' =>
        (decOptTime (encOptTime comp)).bind fun comp' =>
        (decOptMetrics (encOptMetrics met)).bind fun met' =>
        (decOptStr (encOptStr em)).bind fun em' =>
        (decOptStr (encOptStr de)).bind fun de' =>
        some (Compound.mk id dn fn sm jid' st' sub' comp' met' em' de')) =
      some (Compound.mk id dn fn sm jid st sub comp met em de)
  simp only [decOptStr_enc, decStatus_enc, decOptTime_enc, decOptMetrics_enc,
    Option.some_bind]

theorem decParams_enc (p : RunParams) : decParams (encParams p) = some p := by
  rfl

theorem decRun_enc (r : Run) : decRun (encRun r) = some r := by
  obtain ⟨id, dn, fn, arch, aat, params, cat, compat, compounds⟩ := r
  show ((decOptTime (encOptTime aat)).bind fun aat' =>
        (decOptTime (encOptTime compat)).bind fun compat' =>
        (decList decCompound (compounds.map encCompound)).bind fun cs =>
        some (Run.mk id dn fn arch aat' params cat compat' cs)) =
      some (Run.mk id dn fn arch aat params cat compat compounds)
  simp only [decOptTime_enc, decList_enc decCompound encCompound decCompound_enc,
    Option.some_bind]

theorem decCampaign_enc (c : Campaign) : decCampaign (encCampaign c) = some c := by
  obtain ⟨id, dn, fn, seq, desc, arch, aat, cat, runs⟩ := c
  show ((decOptStr (encOptStr desc)).bind fun desc' =>
        (decOptTime (encOptTime aat)).bind fun aat' =>
        (decList decRun (runs.map encRun)).bind fun rs =>
        some (Campaign.mk id dn fn seq desc' arch aat' cat rs)) =
      some (Campaign.mk id dn fn seq desc arch aat cat runs)
  simp only [decOptStr_enc, decOptTime_enc, decList_enc decRun encRun decRun_enc,
    Option.some_bind]

theorem decAppData_enc (d : AppData) : decAppData (encAppData d) = some d := by
  obtain ⟨sv, key, campaigns⟩ := d
  show ((decOptStr (encOptStr key)).bind fun key' =>
        (decList decCampaign (campaigns.map encCampaign)).bind fun cs =>
        some (AppData.mk sv key' cs)) =
      some (AppData.mk sv key campaigns)
  simp only [decOptStr_enc, decList_enc decCampaign encCampaign decCampaign_enc,
    Option.some_bind]

/-! ## Store lemmas

First-match lookup/update commutation, run-completion facts, the
completion invariant, and completed-at stability, proved by induction
over the campaign / run / compound lists. -/

theorem runHasCompound_eq (r : Run) (cid : Nat) :
    runHasCompound r cid = (r.compounds.find? fun x => x.id == cid).isSome := by
  rw [Bool.eq_iff_iff]
  simp [runHasCompound, List.find?_isSome, List.any_eq_true]

theorem find?_updateCompoundList_self (cid : Nat) (f : Compound → Compound)
    (hid : ∀ x, (f x).id = x.id) (l : List Compound) :
    (updateCompoundList cid f l).find? (fun x => x.id == cid) =
      (l.find? (fun x => x.id == cid)).map f := by
  induction l with
  | nil => rfl
  | cons a l ih =>
    by_cases h : (a.id == cid) = true
    · simp [updateCompoundList, h, List.find?_cons, hid]
    · simp [updateCompoundList, h, List.find?_cons, ih]

theorem find?_updateCompoundList_ne (cid cid' : Nat) (f : Compound → Compound)
    (hid : ∀ x, (f x).id = x.id) (hne : cid' ≠ cid) (l : List Compound) :
    (updateCompoundList cid f l).find? (fun x => x.id == cid') =
      l.find? (fun x => x.id == cid') := by
  have hcc : (cid == cid') = false := by
    simpa [beq_eq_false_iff_ne] using Ne.symm hne
  induction l with
  | nil => rfl
  | cons a l ih =>
    by_cases h : (a.id == cid) = true
    · have h' : a.id = cid := by simpa using h
      simp [updateCompoundList, h, List.find?_cons, hid, h', hcc]
    · by_cases h2 : (a.id == cid') = true <;>
        simp [updateCompoundList, h, h2, List.find?_cons, ih]

theorem findSome?_updateCompoundRuns_self (cid : Nat) (f : Compound → Compound)
    (hid : ∀ x, (f x).id = x.id) (rs : List Run) :
    ((updateCompoundRuns cid f rs).findSome? fun r =>
        r.compounds.find? fun x => x.id == cid) =
      ((rs.findSome? fun r => r.compounds.find? fun x => x.id == cid)).map f := by
  induction rs with
  | nil => rfl
  | cons r rs ih =>
    by_cases h : runHasCompound r cid = true
    · rw [runHasCompound_eq] at h
      obtain ⟨y, hy⟩ := Option.isSome_iff_exists.mp h
      simp [updateCompoundRuns, runHasCompound_eq, hy, List.findSome?_cons,
        find?_updateCompoundList_self cid f hid]
    · rw [runHasCompound_eq, Bool.not_eq_true, Option.not_isSome,
        Option.isNone_iff_eq_none] at h
      simp [updateCompoundRuns, runHasCompound_eq, h, List.findSome?_cons, ih]

theorem campaignHasCompound_eq (c : Campaign) (cid : Nat) :
    campaignHasCompound c cid =
      (c.runs.findSome? fun r => r.compounds.find? fun x => x.id == cid).isSome := by
  rw [Bool.eq_iff_iff, Option.isSome_iff_ne_none, Ne, List.findSome?_eq_none_iff]
  push_neg
  simp [campaignHasCompound, List.any_eq_true, runHasCompound_eq,
    Option.isSome_iff_ne_none]

theorem findSome?_updateCompoundRuns_ne (cid cid' : Nat) (f : Compound → Compound)
    (hid : ∀ x, (f x).id = x.id) (hne : cid' ≠ cid) (rs : List Run) :
    ((updateCompoundRuns cid f rs).findSome? fun r =>
        r.compounds.find? fun x => x.id == cid') =
      (rs.findSome? fun r => r.compounds.find? fun x => x.id == cid') := by
  induction rs with
  | nil => rfl
  | cons r rs ih =>
    by_cases h : runHasCompound r cid = true
    · simp [updateCompoundRuns, h, List.findSome?_cons,
        find?_updateCompoundList_ne cid cid' f hid hne, ih]
    · simp [updateCompoundRuns, h, List.findSome?_cons, ih]

theorem findSome?_updateCompoundCampaigns_self (cid : Nat) (f : Compound → Compound)
    (hid : ∀ x, (f x).id = x.id) (cs : List Campaign) :
    ((updateCompoundCampaigns cid f cs).findSome? fun c =>
        c.runs.findSome? fun r => r.compounds.find? fun x => x.id == cid) =
      ((cs.findSome? fun c =>
        c.runs.findSome? fun r => r.compounds.find? fun x => x.id == cid)).map f := by
  induction cs with
  | nil => rfl
  | cons c cs ih =>
    by_cases h : campaignHasCompound c cid = true
    · rw [campaignHasCompound_eq] at h
      obtain ⟨y, hy⟩ := Option.isSome_iff_exists.mp h
      simp [updateCompoundCampaigns, h, campaignHasCompound_eq, hy, List.findSome?_cons,
        findSome?_updateCompoundRuns_self cid f hid]
    · rw [campaignHasCompound_eq, Bool.not_eq_true, Option.not_isSome,
        Option.isNone_iff_eq_none] at h
      simp [updateCompoundCampaigns, campaignHasCompound_eq, h, List.findSome?_cons, ih]

theorem findSome?_updateCompoundCampaigns_ne (cid cid' : Nat) (f : Compound → Compound)
    (hid : ∀ x, (f x).id = x.id) (hne : cid' ≠ cid) (cs : List Campaign) :
    ((updateCompoundCampaigns cid f cs).findSome? fun c =>
        c.runs.findSome? fun r => r.compounds.find? fun x => x.id == cid') =
      (cs.findSome? fun c =>
        c.runs.findSome? fun r => r.compounds.find? fun x => x.id == cid') := by
  induction cs with
  | nil => rfl
  | cons c cs ih =>
    by_cases h : campaignHasCompound c cid = true <;>
      simp [updateCompoundCampaigns, h, List.findSome?_cons,
        findSome?_updateCompoundRuns_ne cid cid' f hid hne, ih]

theorem find_compound_updateCompound_self (d : AppData) (cid : Nat)
    (f : Compound → Compound) (hid : ∀ x, (f x).id = x.id) :
    (d.updateCompound cid f).find_compound cid = (d.find_compound cid).map f :=
  findSome?_updateCompoundCampaigns_self cid f hid d.campaigns

theorem find_compound_updateCompound_ne (d : AppData) (cid cid' : Nat)
    (f : Compound → Compound) (hid : ∀ x, (f x).id = x.id) (hne : cid' ≠ cid) :
    (d.updateCompound cid f).find_compound cid' = d.find_compound cid' :=
  findSome?_updateCompoundCampaigns_ne cid cid' f hid hne d.campaigns

theorem find_run_eq (d : AppData) (rid : Nat) :
    d.find_run rid = d.campaigns.findSome? fun c => c.runs.find? fun r => r.id == rid := by
  show (d.campaigns.findSome? fun c =>
      (c.runs.find? fun r => r.id == rid).map fun r => (c, r)).map Prod.snd = _
  induction d.campaigns with
  | nil => rfl
  | cons c cs ih =>
    cases h : c.runs.find? fun r => r.id == rid <;>
      simp [List.findSome?_cons, h, ih]

theorem campaignHasRun_eq (c : Campaign) (rid : Nat) :
    campaignHasRun c rid = (c.runs.find? fun r => r.id == rid).isSome := by
  rw [Bool.eq_iff_iff]
  simp [campaignHasRun, List.any_eq_true, List.find?_isSome]

theorem find?_updateRunList_self (rid : Nat) (f : Run → Run)
    (hid : ∀ r, (f r).id = r.id) (rs : List Run) :
    (updateRunList rid f rs).find? (fun r => r.id == rid) =
      (rs.find? (fun r => r.id == rid)).map f := by
  induction rs with
  | nil => rfl
  | cons r rs ih =>
    by_cases h : (r.id == rid) = true
    · simp [updateRunList, h, List.find?_cons, hid]
    · simp [updateRunList, h, List.find?_cons, ih]

theorem find?_updateRunList_ne (rid rid' : Nat) (f : Run → Run)
    (hid : ∀ r, (f r).id = r.id) (hne : rid' ≠ rid) (rs : List Run) :
    (updateRunList rid f rs).find? (fun r => r.id == rid') =
      rs.find? (fun r => r.id == rid') := by
  have hcc : (rid == rid') = false := by
    simpa [beq_eq_false_iff_ne] using Ne.symm hne
  induction rs with
  | nil => rfl
  | cons r rs ih =>
    by_cases h : (r.id == rid) = true
    · have h' : r.id = rid := by simpa using h
      simp [updateRunList, h, List.find?_cons, hid, h', hcc]
    · by_cases h2 : (r.id == rid') = true <;>
        simp [updateRunList, h, h2, List.find?_cons, ih]

theorem findSome?_updateRunCampaigns_self (rid : Nat) (f : Run → Run)
    (hid : ∀ r, (f r).id = r.id) (cs : List Campaign) :
    ((updateRunCampaigns rid f cs).findSome? fun c =>
        c.runs.find? fun r => r.id == rid) =
      ((cs.findSome? fun c => c.runs.find? fun r => r.id == rid)).map f := by
  induction cs with
  | nil => rfl
  | cons c cs ih =>
    by_cases h : campaignHasRun c rid = true
    · rw [campaignHasRun_eq] at h
      obtain ⟨y, hy⟩ := Option.isSome_iff_exists.mp h
      simp [updateRunCampaigns, campaignHasRun_eq, hy, List.findSome?_cons,
        find?_updateRunList_self rid f hid]
    · rw [campaignHasRun_eq, Bool.not_eq_true, Option.not_isSome,
        Option.isNone_iff_eq_none] at h
      simp [updateRunCampaigns, campaignHasRun_eq, h, List.findSome?_cons, ih]

theorem findSome?_updateRunCampaigns_ne (rid rid' : Nat) (f : Run → Run)
    (hid : ∀ r, (f r).id = r.id) (hne : rid' ≠ rid) (cs : List Campaign) :
    ((updateRunCampaigns rid f cs).findSome? fun c =>
        c.runs.find? fun r => r.id == rid') =
      (cs.findSome? fun c => c.runs.find? fun r => r.id == rid') := by
  induction cs with
  | nil => rfl
  | cons c cs ih =>
    by_cases h : campaignHasRun c rid = true <;>
      simp [updateRunCampaigns, h, List.findSome?_cons,
        find?_updateRunList_ne rid rid' f hid hne, ih]

theorem find_run_updateRun_self (d : AppData) (rid : Nat) (f : Run → Run)
    (hid : ∀ r, (f r).id = r.id) :
    (d.updateRun rid f).find_run rid = (d.find_run rid).map f := by
  rw [find_run_eq, find_run_eq]
  exact findSome?_updateRunCampaigns_self rid f hid d.campaigns

theorem find_run_updateRun_ne (d : AppData) (rid rid' : Nat) (f : Run → Run)
    (hid : ∀ r, (f r).id = r.id) (hne : rid' ≠ rid) :
    (d.updateRun rid f).find_run rid' = d.find_run rid' := by
  rw [find_run_eq, find_run_eq]
  exact findSome?_updateRunCampaigns_ne rid rid' f hid hne d.campaigns

theorem findSome?_updateRunList_of_comp (rid : Nat) (f : Run → Run)
    (g : Run → Option β) (hg : ∀ r, g (f r) = g r) (rs : List Run) :
    (updateRunList rid f rs).findSome? g = rs.findSome? g := by
  induction rs with
  | nil => rfl
  | cons r rs ih =>
    by_cases h : (r.id == rid) = true <;>
      simp [updateRunList, h, List.findSome?_cons, hg, ih]

theorem findSome?_updateRunCampaigns_compound (rid : Nat) (f : Run → Run)
    (hcomp : ∀ r, (f r).compounds = r.compounds) (cid : Nat) (cs : List Campaign) :
    ((updateRunCampaigns rid f cs).findSome? fun c =>
        c.runs.findSome? fun r => r.compounds.find? fun x => x.id == cid) =
      (cs.findSome? fun c =>
        c.runs.findSome? fun r => r.compounds.find? fun x => x.id == cid) := by
  have hg := findSome?_updateRunList_of_comp rid f
    (fun r => r.compounds.find? fun x => x.id == cid) (fun r => by simp only [hcomp])
  induction cs with
  | nil => rfl
  | cons c cs ih =>
    by_cases h : campaignHasRun c rid = true <;>
      simp [updateRunCampaigns, h, List.findSome?_cons, ih, hg]

theorem find_compound_updateRun (d : AppData) (rid : Nat) (f : Run → Run)
    (hcomp : ∀ r, (f r).compounds = r.compounds) (cid : Nat) :
    (d.updateRun rid f).find_compound cid = d.find_compound cid :=
  findSome?_updateRunCampaigns_compound rid f hcomp cid d.campaigns

theorem find?_updateCompoundRuns_completedAt (cid : Nat) (f : Compound → Compound)
    (rid : Nat) (rs : List Run) :
    ((updateCompoundRuns cid f rs).find? fun r => r.id == rid).map Run.completed_at =
      (rs.find? fun r => r.id == rid).map Run.completed_at := by
  induction rs with
  | nil => rfl
  | cons r rs ih =>
    by_cases h : runHasCompound r cid = true
    · by_cases h2 : (r.id == rid) = true <;>
        simp [updateCompoundRuns, h, h2, List.find?_cons]
    · by_cases h2 : (r.id == rid) = true <;>
        simp [updateCompoundRuns, h, h2, List.find?_cons, ih]

theorem find_run_updateCompound_completedAt (d : AppData) (cid : Nat)
    (f : Compound → Compound) (rid : Nat) :
    ((d.updateCompound cid f).find_run rid).map Run.completed_at =
      (d.find_run rid).map Run.completed_at := by
  rw [find_run_eq, find_run_eq]
  show ((updateCompoundCampaigns cid f d.campaigns).findSome? fun c =>
      c.runs.find? fun r => r.id == rid).map Run.completed_at = _
  induction d.campaigns with
  | nil => rfl
  | cons c cs ih =>
    by_cases h : campaignHasCompound c cid = true
    · have hinner := find?_updateCompoundRuns_completedAt cid f rid c.runs
      cases h2 : c.runs.find? fun r => r.id == rid with
      | none =>
        have : ((updateCompoundRuns cid f c.runs).find? fun r => r.id == rid) = none := by
          rw [h2] at hinner
          simpa using hinner
        simp [updateCompoundCampaigns, h, List.findSome?_cons, h2, this, ih]
      | some y =>
        rw [h2] at hinner
        obtain ⟨y', hy', hp⟩ := Option.map_eq_some'.mp hinner
        simp [updateCompoundCampaigns, h, List.findSome?_cons, h2, hy', hp]
    · cases h2 : c.runs.find? fun r => r.id == rid <;>
        simp [updateCompoundCampaigns, h, List.findSome?_cons, h2, ih]

theorem find_run_context_of_find_run (d : AppData) (rid : Nat) (r : Run)
    (h : d.find_run rid = some r) : ∃ c, d.find_run_context rid = some (c, r) := by
  unfold AppData.find_run at h
  cases hctx : d.find_run_context rid with
  | none => rw [hctx] at h; simp at h
  | some p =>
    obtain ⟨c0, r0⟩ := p
    rw [hctx] at h
    simp only [Option.map_some', Option.some.injEq] at h
    exact ⟨c0, by rw [h]⟩

theorem check_some_facts (d : AppData) (rid : Nat) (evt : RunCompletedEvent)
    (h : d.check_run_completion rid = some evt) :
    ∃ c r, d.find_run_context rid = some (c, r) ∧ r.completed_at = none ∧
      (r.compounds.all fun x => x.status.is_terminal) = true ∧
      r.compounds.isEmpty = false := by
  unfold AppData.check_run_completion at h
  cases hctx : d.find_run_context rid with
  | none => rw [hctx] at h; simp at h
  | some p =>
    obtain ⟨c1, r1⟩ := p
    rw [hctx] at h
    by_cases h1 : r1.completed_at.isSome = true
    · simp [h1] at h
    · by_cases h2 : ((r1.compounds.all fun x => x.status.is_terminal) &&
          !r1.compounds.isEmpty) = true
      · refine ⟨c1, r1, rfl, ?_, ?_, ?_⟩
        · simpa [Option.isNone_iff_eq_none] using h1
        · exact (Bool.and_eq_true .. |>.mp h2).1
        · have := (Bool.and_eq_true .. |>.mp h2).2
          simpa using this
      · simp [h1, h2] at h

theorem check_none_of_completedAt (d : AppData) (rid : Nat) (r : Run)
    (hr : d.find_run rid = some r) (hc : r.completed_at.isSome = true) :
    d.check_run_completion rid = none := by
  obtain ⟨c, hctx⟩ := find_run_context_of_find_run d rid r hr
  unfold AppData.check_run_completion
  rw [hctx]
  simp [hc]

theorem mem_updateCompoundList (cid : Nat) (f : Compound → Compound)
    (l : List Compound) (x : Compound) (hx : x ∈ updateCompoundList cid f l) :
    x ∈ l ∨ ∃ y ∈ l, x = f y := by
  induction l with
  | nil => simp [updateCompoundList] at hx
  | cons a l ih =>
    by_cases h : (a.id == cid) = true
    · rw [updateCompoundList, if_pos h] at hx
      rcases List.mem_cons.mp hx with h1 | h1
      · exact Or.inr ⟨a, by simp, h1⟩
      · exact Or.inl (List.mem_cons_of_mem a h1)
    · rw [updateCompoundList, if_neg h] at hx
      rcases List.mem_cons.mp hx with h1 | h1
      · exact Or.inl (by simp [h1])
      · rcases ih h1 with h2 | ⟨y, hy, hz⟩
        · exact Or.inl (List.mem_cons_of_mem a h2)
        · exact Or.inr ⟨y, List.mem_cons_of_mem a hy, hz⟩

theorem mem_updateCompoundRuns (cid : Nat) (f : Compound → Compound)
    (rs : List Run) (r' : Run) (hr : r' ∈ updateCompoundRuns cid f rs) :
    r' ∈ rs ∨ ∃ r ∈ rs, r' = { r with compounds := updateCompoundList cid f r.compounds } := by
  induction rs with
  | nil => simp [updateCompoundRuns] at hr
  | cons a rs ih =>
    by_cases h : runHasCompound a cid = true
    · rw [updateCompoundRuns, if_pos h] at hr
      rcases List.mem_cons.mp hr with h1 | h1
      · exact Or.inr ⟨a, by simp, h1⟩
      · exact Or.inl (List.mem_cons_of_mem a h1)
    · rw [updateCompoundRuns, if_neg h] at hr
      rcases List.mem_cons.mp hr with h1 | h1
      · exact Or.inl (by simp [h1])
      · rcases ih h1 with h2 | ⟨y, hy, hz⟩
        · exact Or.inl (List.mem_cons_of_mem a h2)
        · exact Or.inr ⟨y, List.mem_cons_of_mem a hy, hz⟩

theorem mem_updateCompoundCampaigns (cid : Nat) (f : Compound → Compound)
    (cs : List Campaign) (c' : Campaign) (hc : c' ∈ updateCompoundCampaigns cid f cs) :
    c' ∈ cs ∨ ∃ c ∈ cs, c' = { c with runs := updateCompoundRuns cid f c.runs } := by
  induction cs with
  | nil => simp [updateCompoundCampaigns] at hc
  | cons a cs ih =>
    by_cases h : campaignHasCompound a cid = true
    · rw [updateCompoundCampaigns, if_pos h] at hc
      rcases List.mem_cons.mp hc with h1 | h1
      · exact Or.inr ⟨a, by simp, h1⟩
      · exact Or.inl (List.mem_cons_of_mem a h1)
    · rw [updateCompoundCampaigns, if_neg h] at hc
      rcases List.mem_cons.mp hc with h1 | h1
      · exact Or.inl (by simp [h1])
      · rcases ih h1 with h2 | ⟨y, hy, hz⟩
        · exact Or.inl (List.mem_cons_of_mem a h2)
        · exact Or.inr ⟨y, List.mem_cons_of_mem a hy, hz⟩

theorem invB_updateCompound (d : AppData) (cid : Nat) (f : Compound → Compound)
    (hf : ∀ x, ((f x).status.is_terminal) = true)
    (h : runCompletedInvB d = true) :
    runCompletedInvB (d.updateCompound cid f) = true := by
  simp only [runCompletedInvB, List.all_eq_true] at h ⊢
  intro c' hc'
  rcases mem_updateCompoundCampaigns cid f d.campaigns c' hc' with h1 | ⟨c, hc, rfl⟩
  · exact h c' h1
  · intro r' hr'
    rcases mem_updateCompoundRuns cid f c.runs r' hr' with h2 | ⟨r, hr, rfl⟩
    · exact h c hc r' h2
    · have hrr := h c hc r hr
      simp only [runTerminalOk, Bool.or_eq_true] at hrr ⊢
      rcases hrr with h3 | h3
      · exact Or.inl h3
      · refine Or.inr ?_
        simp only [List.all_eq_true] at h3 ⊢
        intro x hx
        rcases mem_updateCompoundList cid f r.compounds x hx with h4 | ⟨y, hy, rfl⟩
        · exact h3 x h4
        · exact hf y

theorem invB_updateRunList_runs (rid : Nat) (f : Run → Run) (r0 : Run)
    (hf : runTerminalOk (f r0) = true) :
    ∀ (rs : List Run), rs.find? (fun r => r.id == rid) = some r0 →
      (∀ r ∈ rs, runTerminalOk r = true) →
      ∀ r' ∈ updateRunList rid f rs, runTerminalOk r' = true := by
  intro rs
  induction rs with
  | nil => simp
  | cons a rs ih =>
    intro hfind hall r' hr'
    by_cases ha : (a.id == rid) = true
    · simp only [List.find?_cons, ha, Option.some.injEq] at hfind
      subst hfind
      rw [updateRunList, if_pos ha] at hr'
      rcases List.mem_cons.mp hr' with h2 | h2
      · subst h2; exact hf
      · exact hall r' (List.mem_cons_of_mem a h2)
    · have ha' : (a.id == rid) = false := by simpa using ha
      simp only [List.find?_cons, ha'] at hfind
      rw [updateRunList, if_neg ha] at hr'
      rcases List.mem_cons.mp hr' with h2 | h2
      · subst h2; exact hall _ (by simp)
      · exact ih hfind (fun r'' hr'' => hall r'' (List.mem_cons_of_mem a hr'')) r' h2

theorem invB_updateRunCampaigns_aux (rid : Nat) (f : Run → Run) (r0 : Run)
    (hf : runTerminalOk (f r0) = true) :
    ∀ (cs : List Campaign),
      (cs.findSome? fun c => c.runs.find? fun r => r.id == rid) = some r0 →
      (∀ c ∈ cs, ∀ r ∈ c.runs, runTerminalOk r = true) →
      ∀ c' ∈ updateRunCampaigns rid f cs, ∀ r' ∈ c'.runs, runTerminalOk r' = true := by
  intro cs
  induction cs with
  | nil => simp
  | cons c cs ih =>
    intro hfind hall c' hc'
    by_cases hcc : campaignHasRun c rid = true
    · have hys : (c.runs.find? fun r => r.id == rid).isSome := by
        rw [← campaignHasRun_eq]; exact hcc
      obtain ⟨y, hy⟩ := Option.isSome_iff_exists.mp hys
      simp only [List.findSome?_cons, hy, Option.some.injEq] at hfind
      subst hfind
      rw [updateRunCampaigns, if_pos hcc] at hc'
      rcases List.mem_cons.mp hc' with h1 | h1
      · subst h1
        exact invB_updateRunList_runs rid f y hf c.runs hy
          (fun r hr => hall c (by simp) r hr)
      · exact fun r' hr' => hall c' (List.mem_cons_of_mem c h1) r' hr'
    · have hn : (c.runs.find? fun r => r.id == rid) = none := by
        rw [← Option.not_isSome_iff_eq_none, ← campaignHasRun_eq]
        rw [Bool.not_eq_true] at hcc
        simp [hcc]
      simp only [List.findSome?_cons, hn] at hfind
      rw [updateRunCampaigns, if_neg hcc] at hc'
      rcases List.mem_cons.mp hc' with h1 | h1
      · subst h1; exact fun r' hr' => hall c' (by simp) r' hr'
      · exact ih hfind (fun c'' hc'' r'' hr'' =>
          hall c'' (List.mem_cons_of_mem c hc'') r'' hr'') c' h1

theorem invB_updateRun_first (d : AppData) (rid : Nat) (f : Run → Run) (r0 : Run)
    (hr : d.find_run rid = some r0)
    (hf : runTerminalOk (f r0) = true)
    (h : runCompletedInvB d = true) :
    runCompletedInvB (d.updateRun rid f) = true := by
  rw [find_run_eq] at hr
  simp only [runCompletedInvB, List.all_eq_true] at h ⊢
  exact invB_updateRunCampaigns_aux rid f r0 hf d.campaigns hr h

theorem pca_refl (d : AppData) : preservesCompletedAt d d := fun _ _ h => h

theorem pca_trans {d1 d2 d3 : AppData} (h1 : preservesCompletedAt d1 d2)
    (h2 : preservesCompletedAt d2 d3) : preservesCompletedAt d1 d3 :=
  fun rid t h => h2 rid t (h1 rid t h)

theorem pca_updateCompound (d : AppData) (cid : Nat) (f : Compound → Compound) :
    preservesCompletedAt d (d.updateCompound cid f) := by
  intro rid t h
  rw [find_run_updateCompound_completedAt]
  exact h

theorem pca_updateRun_keep (d : AppData) (rid0 : Nat) (f : Run → Run)
    (hid : ∀ r, (f r).id = r.id) (hk : ∀ r, (f r).completed_at = r.completed_at) :
    preservesCompletedAt d (d.updateRun rid0 f) := by
  intro rid t h
  by_cases he : rid = rid0
  · subst he
    rw [find_run_updateRun_self d rid f hid]
    cases hfr : d.find_run rid with
    | none => rw [hfr] at h; simp at h
    | some r =>
      rw [hfr] at h
      simp only [Option.map_some', Option.some.injEq] at h
      simp [hk, h]
  · rw [find_run_updateRun_ne d rid0 rid f hid he]
    exact h

theorem checkAndMark_snd_none (d : AppData) (rid0 : Nat) (now : Int)
    (hch : d.check_run_completion rid0 = none) :
    (d.checkAndMarkRunCompletion rid0 now).2 = d := by
  unfold AppData.checkAndMarkRunCompletion
  rw [hch]

theorem checkAndMark_snd_some (d : AppData) (rid0 : Nat) (now : Int)
    (evt : RunCompletedEvent) (hch : d.check_run_completion rid0 = some evt) :
    (d.checkAndMarkRunCompletion rid0 now).2 =
      d.updateRun rid0 (fun r => { r with completed_at := some now }) := by
  unfold AppData.checkAndMarkRunCompletion
  rw [hch]

theorem pca_checkAndMark (d : AppData) (rid0 : Nat) (now : Int) :
    preservesCompletedAt d (d.checkAndMarkRunCompletion rid0 now).2 := by
  cases hch : d.check_run_completion rid0 with
  | none => rw [checkAndMark_snd_none d rid0 now hch]; exact pca_refl d
  | some evt =>
    rw [checkAndMark_snd_some d rid0 now evt hch]
    obtain ⟨c, r, hctx, hnone, hterm, hne⟩ := check_some_facts d rid0 evt hch
    have hfr : d.find_run rid0 = some r := by
      unfold AppData.find_run
      rw [hctx]
      rfl
    intro rid t h
    by_cases he : rid = rid0
    · subst he
      rw [hfr] at h
      simp only [Option.map_some', Option.some.injEq] at h
      rw [hnone] at h
      simp at h
    · rw [find_run_updateRun_ne d rid0 rid
        (fun r => { r with completed_at := some now }) (fun r => rfl) he]
      exact h

theorem invB_checkAndMark (d : AppData) (rid0 : Nat) (now : Int)
    (h : runCompletedInvB d = true) :
    runCompletedInvB (d.checkAndMarkRunCompletion rid0 now).2 = true := by
  cases hch : d.check_run_completion rid0 with
  | none => rw [checkAndMark_snd_none d rid0 now hch]; exact h
  | some evt =>
    rw [checkAndMark_snd_some d rid0 now evt hch]
    obtain ⟨c, r, hctx, hnone, hterm, hne⟩ := check_some_facts d rid0 evt hch
    have hfr : d.find_run rid0 = some r := by
      unfold AppData.find_run
      rw [hctx]
      rfl
    exact invB_updateRun_first d rid0 _ r hfr
      (by simp [runTerminalOk, hterm]) h

theorem foldl_invB {β : Type} (step : AppData → β → AppData)
    (hstep : ∀ d x, runCompletedInvB d = true → runCompletedInvB (step d x) = true) :
    ∀ (l : List β) (d : AppData), runCompletedInvB d = true →
      runCompletedInvB (l.foldl step d) = true := by
  intro l
  induction l with
  | nil => exact fun d h => h
  | cons x l ih => exact fun d h => ih (step d x) (hstep d x h)

theorem foldl_pca {β : Type} (step : AppData → β → AppData)
    (hstep : ∀ d x, preservesCompletedAt d (step d x)) :
    ∀ (l : List β) (d : AppData), preservesCompletedAt d (l.foldl step d) := by
  intro l
  induction l with
  | nil => exact fun d => pca_refl d
  | cons x l ih => exact fun d => pca_trans (hstep d x) (ih (step d x))

theorem onCompoundCompleted_fst (d : AppData) (ref : CompoundRef)
    (m : CompoundMetrics) (now : Int) :
    (onCompoundCompleted d ref m now).1 =
      ((d.updateCompound ref.compound_id fun c =>
        { c with status := .Completed, completed_at := some now,
                 metrics := some m }).checkAndMarkRunCompletion ref.run_id now).2 := by
  unfold onCompoundCompleted
  rfl

theorem onCompoundFailed_fst (d : AppData) (ref : CompoundRef)
    (st : JobStatus) (msg : String) (now : Int) :
    (onCompoundFailed d ref st msg now).1 =
      ((d.updateCompound ref.compound_id fun c =>
        { c with status := st, completed_at := some now,
                 error_message := some msg }).checkAndMarkRunCompletion ref.run_id now).2 := by
  unfold onCompoundFailed
  rfl

theorem invB_onCompoundCompleted (d : AppData) (ref : CompoundRef)
    (m : CompoundMetrics) (now : Int) (h : runCompletedInvB d = true) :
    runCompletedInvB (onCompoundCompleted d ref m now).1 = true := by
  rw [onCompoundCompleted_fst]
  exact invB_checkAndMark _ _ _ (invB_updateCompound d _ _ (fun x => rfl) h)

theorem invB_onCompoundFailed (d : AppData) (ref : CompoundRef)
    (st : JobStatus) (msg : String) (now : Int) (hst : st.is_terminal = true)
    (h : runCompletedInvB d = true) :
    runCompletedInvB (onCompoundFailed d ref st msg now).1 = true := by
  rw [onCompoundFailed_fst]
  exact invB_checkAndMark _ _ _ (invB_updateCompound d _ _ (fun x => hst) h)

theorem pca_onCompoundCompleted (d : AppData) (ref : CompoundRef)
    (m : CompoundMetrics) (now : Int) :
    preservesCompletedAt d (onCompoundCompleted d ref m now).1 := by
  rw [onCompoundCompleted_fst]
  exact pca_trans (pca_updateCompound d _ _) (pca_checkAndMark _ _ _)

theorem pca_onCompoundFailed (d : AppData) (ref : CompoundRef)
    (st : JobStatus) (msg : String) (now : Int) :
    preservesCompletedAt d (onCompoundFailed d ref st msg now).1 := by
  rw [onCompoundFailed_fst]
  exact pca_trans (pca_updateCompound d _ _) (pca_checkAndMark _ _ _)

theorem pollTick_eq_none (d : AppData) (now : Int) (hk : d.api_key = none) :
    pollTickTimeoutPhase d now = d := by
  unfold pollTickTimeoutPhase
  rw [hk]

theorem pollTick_eq_emptyKey (d : AppData) (now : Int) (k : String)
    (hk : d.api_key = some k) (hke : (k == "") = true) :
    pollTickTimeoutPhase d now = d := by
  unfold pollTickTimeoutPhase
  rw [hk]
  simp only [hke, if_true]

theorem pollTick_eq_active (d : AppData) (now : Int) (k : String)
    (hk : d.api_key = some k) (hke : (k == "") = false) :
    pollTickTimeoutPhase d now =
      (let timed_out := (d.all_compounds_in_progress).filter
         fun r => now - r.submitted_at > POLL_TIMEOUT_MS
       let d1 := timed_out.foldl
         (fun acc r => acc.updateCompound r.compound_id (markTimedOut now)) d
       (dedupFirst (timed_out.map fun r => r.run_id)).foldl
         (fun acc rid => (acc.checkAndMarkRunCompletion rid now).2) d1) := by
  unfold pollTickTimeoutPhase
  rw [hk]
  simp [hke]

theorem invB_pollTick (d : AppData) (now : Int) (h : runCompletedInvB d = true) :
    runCompletedInvB (pollTickTimeoutPhase d now) = true := by
  cases hk : d.api_key with
  | none => rw [pollTick_eq_none d now hk]; exact h
  | some k =>
    by_cases hke : (k == "") = true
    · rw [pollTick_eq_emptyKey d now k hk hke]; exact h
    · rw [pollTick_eq_active d now k hk (by simpa using hke)]
      exact foldl_invB _ (fun d2 rid hh => invB_checkAndMark d2 rid now hh) _ _
        (foldl_invB _ (fun d2 r hh =>
          invB_updateCompound d2 r.compound_id (markTimedOut now) (fun x => rfl) hh) _ _ h)

theorem pca_pollTick (d : AppData) (now : Int) :
    preservesCompletedAt d (pollTickTimeoutPhase d now) := by
  cases hk : d.api_key with
  | none => rw [pollTick_eq_none d now hk]; exact pca_refl d
  | some k =>
    by_cases hke : (k == "") = true
    · rw [pollTick_eq_emptyKey d now k hk hke]; exact pca_refl d
    · rw [pollTick_eq_active d now k hk (by simpa using hke)]
      exact pca_trans
        (foldl_pca _ (fun (d2 : AppData) (r : CompoundRef) =>
          pca_updateCompound d2 r.compound_id (markTimedOut now)) _ d)
        (foldl_pca _ (fun (d2 : AppData) (rid : Nat) => pca_checkAndMark d2 rid now) _ _)

theorem cancelRun_eq_notFound (d : AppData) (rid : Nat) (now : Int)
    (h : d.find_run rid = none) : cancelRun d rid now = d := by
  unfold cancelRun
  rw [h]

theorem cancelRun_eq_allTerminal (d : AppData) (rid : Nat) (now : Int) (run : Run)
    (h : d.find_run rid = some run)
    (hany : (run.compounds.any fun c => !c.status.is_terminal) = false) :
    cancelRun d rid now = d := by
  unfold cancelRun
  rw [h]
  simp [hany]

theorem cancelRun_eq_change (d : AppData) (rid : Nat) (now : Int) (run : Run)
    (h : d.find_run rid = some run)
    (hany : (run.compounds.any fun c => !c.status.is_terminal) = true) :
    cancelRun d rid now =
      ((d.updateRun rid fun r =>
        { r with compounds := r.compounds.map fun c =>
            if !c.status.is_terminal then
              { c with status := .Cancelled, completed_at := some now }
            else c }).checkAndMarkRunCompletion rid now).2 := by
  unfold cancelRun
  rw [h]
  simp [hany]

theorem cancelMap_all_terminal (now : Int) (l : List Compound) :
    ((l.map fun c =>
        if !c.status.is_terminal then
          { c with status := JobStatus.Cancelled, completed_at := some now }
        else c).all fun x => x.status.is_terminal) = true := by
  rw [List.all_eq_true]
  intro x hx
  obtain ⟨y, hy, rfl⟩ := List.mem_map.mp hx
  by_cases ht : y.status.is_terminal = true
  · simp [ht]
  · have ht' : y.status.is_terminal = false := by simpa using ht
    simp [ht']
    rfl

theorem invB_cancelRun (d : AppData) (rid : Nat) (now : Int)
    (h : runCompletedInvB d = true) :
    runCompletedInvB (cancelRun d rid now) = true := by
  cases hr : d.find_run rid with
  | none => rw [cancelRun_eq_notFound d rid now hr]; exact h
  | some run =>
    by_cases hany : (run.compounds.any fun c => !c.status.is_terminal) = true
    · rw [cancelRun_eq_change d rid now run hr hany]
      refine invB_checkAndMark _ _ _ ?_
      refine invB_updateRun_first d rid _ run hr ?_ h
      simp only [runTerminalOk, Bool.or_eq_true]
      exact Or.inr (cancelMap_all_terminal now run.compounds)
    · rw [cancelRun_eq_allTerminal d rid now run hr (by simpa using hany)]
      exact h

theorem pca_cancelRun (d : AppData) (rid : Nat) (now : Int) :
    preservesCompletedAt d (cancelRun d rid now) := by
  cases hr : d.find_run rid with
  | none => rw [cancelRun_eq_notFound d rid now hr]; exact pca_refl d
  | some run =>
    by_cases hany : (run.compounds.any fun c => !c.status.is_terminal) = true
    · rw [cancelRun_eq_change d rid now run hr hany]
      refine pca_trans ?_ (pca_checkAndMark _ _ _)
      exact pca_updateRun_keep d rid _ (fun r => rfl) (fun r => rfl)
    · rw [cancelRun_eq_allTerminal d rid now run hr (by simpa using hany)]
      exact pca_refl d

theorem pca_retryReset (d d' : AppData) (cid : Nat)
    (h : retryCompoundReset d cid = some d') : preservesCompletedAt d d' := by
  unfold retryCompoundReset at h
  cases hk : d.api_key with
  | none => rw [hk] at h; simp at h
  | some k =>
    simp only [hk] at h
    cases hc : d.find_compound cid with
    | none => simp only [hc] at h; exact absurd h (by simp)
    | some c =>
      simp only [hc] at h
      by_cases ht : c.status.is_terminal = true
      · rw [if_pos ht] at h
        simp only [Option.some.injEq] at h
        subst h
        exact pca_updateCompound d cid _
      · rw [if_neg ht] at h
        simp at h

theorem pca_retryCommit (d : AppData) (cid : Nat)
    (result : Except AppError String) (now : Int) :
    preservesCompletedAt d (retryCompoundCommit d cid result now) := by
  unfold retryCompoundCommit
  cases result with
  | ok pid => exact pca_updateCompound d cid _
  | error e => exact pca_updateCompound d cid _

theorem exists_of_findSome_eq_some {f : α → Option β} {l : List α} {b : β}
    (h : l.findSome? f = some b) : ∃ a ∈ l, f a = some b := by
  obtain ⟨l₁, a, l₂, rfl, hfa, -⟩ := List.findSome?_eq_some_iff.mp h
  exact ⟨a, by simp, hfa⟩

theorem find_compound_mem (d : AppData) (cid : Nat) (c : Compound)
    (h : d.find_compound cid = some c) :
    ∃ camp ∈ d.campaigns, ∃ run ∈ camp.runs, c ∈ run.compounds ∧ c.id = cid := by
  unfold AppData.find_compound at h
  obtain ⟨camp, hcamp, h2⟩ := exists_of_findSome_eq_some h
  obtain ⟨run, hrun, h3⟩ := exists_of_findSome_eq_some h2
  refine ⟨camp, hcamp, run, hrun, List.mem_of_find?_eq_some h3, ?_⟩
  have := List.find?_some h3
  simpa using this

theorem mem_allCompounds_of_nested (d : AppData) (c : Compound)
    (h : ∃ camp ∈ d.campaigns, ∃ run ∈ camp.runs, c ∈ run.compounds) :
    c ∈ allCompounds d := by
  obtain ⟨camp, hcamp, run, hrun, hc⟩ := h
  unfold allCompounds
  rw [List.mem_flatMap]
  exact ⟨camp, hcamp, by rw [List.mem_flatMap]; exact ⟨run, hrun, hc⟩⟩

theorem refs_sound (d : AppData) (r : CompoundRef)
    (h : r ∈ d.all_compounds_in_progress) :
    ∃ x ∈ allCompounds d, x.id = r.compound_id ∧
      x.submitted_at = some r.submitted_at ∧ x.status.is_terminal = false := by
  unfold AppData.all_compounds_in_progress at h
  rw [List.mem_flatMap] at h
  obtain ⟨camp, hcamp, h2⟩ := h
  rw [List.mem_flatMap] at h2
  obtain ⟨run, hrun, h3⟩ := h2
  rw [List.mem_filterMap] at h3
  obtain ⟨x, hx, hfx⟩ := h3
  refine ⟨x, mem_allCompounds_of_nested d x ⟨camp, hcamp, run, hrun, hx⟩, ?_⟩
  by_cases ht : x.status.is_terminal = true
  · simp [ht] at hfx
  · have ht' : x.status.is_terminal = false := by simpa using ht
    simp only [ht', Bool.not_false, if_true] at hfx
    cases hj : x.boltz_job_id with
    | none => rw [hj] at hfx; simp at hfx
    | some j =>
      rw [hj] at hfx
      cases hs : x.submitted_at with
      | none => rw [hs] at hfx; simp at hfx
      | some st =>
        rw [hs] at hfx
        simp only [Option.some.injEq] at hfx
        subst hfx
        exact ⟨rfl, by simp [hs], ht'⟩

theorem refs_complete (d : AppData) (c : Compound) (cid : Nat) (j : String) (T : Int)
    (hfind : d.find_compound cid = some c)
    (hterm : c.status.is_terminal = false)
    (hjob : c.boltz_job_id = some j)
    (hsub : c.submitted_at = some T) :
    ∃ r ∈ d.all_compounds_in_progress, r.compound_id = cid ∧ r.submitted_at = T := by
  obtain ⟨camp, hcamp, run, hrun, hc, hcid⟩ := find_compound_mem d cid c hfind
  refine ⟨{ compound_id := c.id, boltz_job_id := j, campaign_id := camp.id,
            run_id := run.id, submitted_at := T }, ?_, hcid, rfl⟩
  unfold AppData.all_compounds_in_progress
  rw [List.mem_flatMap]
  refine ⟨camp, hcamp, ?_⟩
  rw [List.mem_flatMap]
  refine ⟨run, hrun, ?_⟩
  rw [List.mem_filterMap]
  refine ⟨c, hc, ?_⟩
  simp [hterm, hjob, hsub]

theorem find_foldl_updates (f : Compound → Compound)
    (hid : ∀ x, (f x).id = x.id) (hidem : ∀ x, f (f x) = f x)
    (refs : List CompoundRef) :
    ∀ (d : AppData) (cid : Nat),
    (refs.foldl (fun acc r => acc.updateCompound r.compound_id f) d).find_compound cid =
      (if refs.any (fun r => r.compound_id == cid) then
        (d.find_compound cid).map f
      else d.find_compound cid) := by
  induction refs with
  | nil => intro d cid; simp
  | cons r rs ih =>
    intro d cid
    by_cases hr : (r.compound_id == cid) = true
    · have hr' : r.compound_id = cid := by simpa using hr
      subst hr'
      rw [List.foldl_cons, ih, find_compound_updateCompound_self d r.compound_id f hid]
      by_cases hany : (rs.any fun x => x.compound_id == r.compound_id) = true
      · rw [if_pos hany, if_pos (by simp [hany]), Option.map_map]
        cases d.find_compound r.compound_id with
        | none => rfl
        | some c => simp [Function.comp, hidem]
      · rw [if_neg hany, if_pos (by simp)]
    · have hr' : cid ≠ r.compound_id := fun he => hr (by simp [he])
      rw [List.foldl_cons, ih,
        find_compound_updateCompound_ne d r.compound_id cid f hid hr']
      by_cases hany : (rs.any fun x => x.compound_id == cid) = true
      · rw [if_pos hany, if_pos (by simp [hany])]
      · have hany' : (rs.any fun x => x.compound_id == cid) = false := by
          simpa using hany
        have hr2 : (r.compound_id == cid) = false := by simpa using hr
        rw [if_neg hany, if_neg (by simp [hany', hr2])]

theorem find_compound_checkAndMark (d : AppData) (rid : Nat) (now : Int) (cid : Nat) :
    ((d.checkAndMarkRunCompletion rid now).2).find_compound cid = d.find_compound cid := by
  cases hch : d.check_run_completion rid with
  | none => rw [checkAndMark_snd_none d rid now hch]
  | some evt =>
    rw [checkAndMark_snd_some d rid now evt hch]
    exact find_compound_updateRun d rid
      (fun r => { r with completed_at := some now }) (fun r => rfl) cid

theorem find_compound_foldl_checkAndMark (now : Int) (rids : List Nat) :
    ∀ (d : AppData) (cid : Nat),
    ((rids.foldl (fun acc rid => (acc.checkAndMarkRunCompletion rid now).2) d)).find_compound cid =
      d.find_compound cid := by
  induction rids with
  | nil => intro d cid; rfl
  | cons rid rids ih =>
    intro d cid
    rw [List.foldl_cons, ih, find_compound_checkAndMark]

theorem parse_metrics_no_affinity (p : PredictionStatus)
    (r : PredictionResults) (o : PredictionOutput) (m : Json)
    (hr : p.prediction_results = some r) (ho : r.output = some o)
    (hm : o.metrics = some m) (ha : m.get "affinity" = none) :
    parse_metrics p = .error (.Other "No affinity metrics") := by
  simp [parse_metrics, hr, ho, hm, ha]
  rfl

/-! ## Theorems -/

/-- C8: persisting any hierarchy to disk and loading it back yields a
structurally identical hierarchy, every unset optional field included:
the serde encoding is decoded exactly, so `load_state` after
`persist_state` recovers the persisted `AppData` unchanged. -/
theorem c8_persist_load_roundtrip (fs : FileSys) (root : String) (d : AppData) :
    (load_state (persist_state fs root d) root).map (fun p => p.1.data) =
      .ok d := by
  simp [load_state, persist_state, FileSys.rename, FileSys.read, FileSys.write,
        FileSys.remove, decAppData_enc, Except.map]

/-- C1: the claim says an HTTP 400 response is attempted exactly once (a
permanent error, no retry).  The code behaves otherwise: a 400 response
surfaces as `AppError::Api("Submit failed (400 Bad Request): ...")`
(`StatusCode` displays as "400 Bad Request"), `is_permanent_error` looks
for the substring "(400)", which never occurs, so the request is treated
as transient and attempted 3 times — contradicting the claim, the spec,
and `with_retry`'s own doc comment.  The 500 half of the claim does hold:
3 attempts with delays 0, 1000+jitter, 2000+jitter (jitter drawn from
[0,500)). -/
theorem c1_http400_is_retried_three_times (jitter : Nat → Nat) :
    (with_retry (α := Unit) (fun _ => .error (submitHttpError 400 "")) jitter).attempts = 3 ∧
    is_permanent_error (submitHttpError 400 "") = false ∧
    (with_retry (α := Unit) (fun _ => .error (submitHttpError 500 "")) jitter).attempts = 3 ∧
    (with_retry (α := Unit) (fun _ => .error (submitHttpError 500 "")) jitter).delays =
      [0, 1000 + jitter 1, 2000 + jitter 2] := by
  refine ⟨rfl, rfl, rfl, rfl⟩

/-- C2: the claim says an entry whose joined destination resolves outside
the extraction directory aborts extraction with a path-traversal error
and nothing is written outside.  The code behaves otherwise: for the
entry "p/../../../../etc/passwd" the destination is
`temp_dir.join("../../../etc/passwd")`, `Path::starts_with` compares
components lexically without resolving "..", so the zip-slip check
passes, extraction succeeds, and the entry is unpacked at /etc/passwd —
outside the extraction directory — contradicting the claim, the spec,
and the code's own comment that the check catches ".." traversal. -/
theorem c2_traversal_entry_escapes_extraction_dir :
    extract_tar_gz [⟨"p/../../../../etc/passwd"⟩] ["root", ".boltz-temp", "cid"] =
      .ok [["etc", "passwd"]] ∧
    pathStartsWith ["etc", "passwd"] ["root", ".boltz-temp", "cid"] = false := by
  constructor
  · rfl
  · rfl

/-- C9: with base "x" and existing sibling folder names {"x", "x-2"},
`unique_folder_name` returns "x-3". -/
theorem c9_unique_folder_name_collision :
    unique_folder_name "x" ["x", "x-2"] = "x-3" := by
  rfl

set_option maxRecDepth 4000

/-- C10: the claim says `sanitise_folder_name` returns normally on every
input, the byte-indexed truncation `s[..200]` never landing inside a
character boundary.  The code behaves otherwise: on the 101-character
alphanumeric input "a" followed by 100 copies of 'é' (201 UTF-8 bytes,
every byte boundary after 'a' is odd), byte index 200 falls inside the
100th 'é', and `s[..200]` panics — modelled by `none`. -/
theorem c10_sanitise_panics_on_multibyte :
    (('a' :: List.replicate 100 'é').all fun c => rustIsAlphanumeric c) = true ∧
    utf8Len ('a' :: List.replicate 100 'é') = 201 ∧
    sanitise_folder_name (String.mk ('a' :: List.replicate 100 'é')) = none := by
  refine ⟨by decide, by decide, by decide⟩

/-- C3 counterexample: the claim says every hierarchy-mutating operation,
`retry_compound` included, preserves the invariant that `run.completed_at`
is `Some` only when every compound of the run is terminal.  It does not:
on a completed run (`completed_at = some 5`, single `Completed` compound),
the reset phase of `retry_compound` sets the compound back to `Pending`
but never clears the run's `completed_at`, leaving a state that violates
the invariant. -/
theorem c3_retry_breaks_invariant :
    runCompletedInvB sampleData = true ∧
    (retryCompoundReset sampleData 3).map runCompletedInvB = some false := by
  constructor
  · decide
  · decide

/-- C3 amended: `run.completed_at` is `Some` only when every compound of
the run is terminal, stated as the invariant `runCompletedInvB`; compound
completion, compound failure, the poller timeout sweep, and `cancel_run`
preserve it, and no operation — `retry_compound` included — ever changes a
`completed_at` that is already set (it is set at most once).
`retry_compound`, however, does not preserve the invariant itself: it
resets a terminal compound to `Pending` without clearing the run's
`completed_at` (see the counterexample). -/
theorem c3_amended_ops_preserve (d : AppData) (ref : CompoundRef)
    (st : JobStatus) (msg : String) (m : CompoundMetrics) (now : Int)
    (rid cid : Nat) (result : Except AppError String)
    (hst : st.is_terminal = true)
    (hinv : runCompletedInvB d = true) :
    runCompletedInvB (onCompoundCompleted d ref m now).1 = true ∧
    runCompletedInvB (onCompoundFailed d ref st msg now).1 = true ∧
    runCompletedInvB (pollTickTimeoutPhase d now) = true ∧
    runCompletedInvB (cancelRun d rid now) = true ∧
    preservesCompletedAt d (onCompoundCompleted d ref m now).1 ∧
    preservesCompletedAt d (onCompoundFailed d ref st msg now).1 ∧
    preservesCompletedAt d (pollTickTimeoutPhase d now) ∧
    preservesCompletedAt d (cancelRun d rid now) ∧
    (∀ d', retryCompoundReset d cid = some d' → preservesCompletedAt d d') ∧
    preservesCompletedAt d (retryCompoundCommit d cid result now) :=
  ⟨invB_onCompoundCompleted d ref m now hinv,
   invB_onCompoundFailed d ref st msg now hst hinv,
   invB_pollTick d now hinv,
   invB_cancelRun d rid now hinv,
   pca_onCompoundCompleted d ref m now,
   pca_onCompoundFailed d ref st msg now,
   pca_pollTick d now,
   pca_cancelRun d rid now,
   fun d' h => pca_retryReset d d' cid h,
   pca_retryCommit d cid result now⟩

/-- C3 witness: the amended theorem applied at a concrete state. -/
theorem c3_amended_witness :
    runCompletedInvB (pollTickTimeoutPhase sampleData 7300000) = true :=
  (c3_amended_ops_preserve sampleData sampleRef .Failed "err"
    { affinity := ⟨⟨0⟩, ⟨0⟩⟩, samples := [] } 7300000 2 3 (.ok "p")
    (by decide) (by decide)).2.2.1

/-- C4: for a hierarchy whose run `rid` is non-empty, fully terminal and
not yet marked complete, the run-completion check returns the
per-terminal-status completion summary, and — the caller marking
`completed_at` under the same lock, as every call site does — a second
check in a row returns nothing.  The two calls yield the summary exactly
once. -/
theorem c4_statement (d : AppData) (rid : Nat) (now : Int) (c : Campaign) (r : Run)
    (hctx : d.find_run_context rid = some (c, r))
    (hnone : r.completed_at = none)
    (hne : r.compounds.isEmpty = false)
    (hterm : (r.compounds.all fun x => x.status.is_terminal) = true) :
    d.check_run_completion rid =
      some { run_id := r.id, campaign_id := c.id, run_name := r.display_name,
             total_compounds := r.compounds.length,
             completed_count :=
               (r.compounds.filter fun x => x.status == .Completed).length,
             failed_count :=
               (r.compounds.filter fun x => x.status == .Failed).length,
             timed_out_count :=
               (r.compounds.filter fun x => x.status == .TimedOut).length,
             cancelled_count :=
               (r.compounds.filter fun x => x.status == .Cancelled).length } ∧
    ((d.checkAndMarkRunCompletion rid now).2).check_run_completion rid = none := by
  have hfirst : d.check_run_completion rid =
      some { run_id := r.id, campaign_id := c.id, run_name := r.display_name,
             total_compounds := r.compounds.length,
             completed_count :=
               (r.compounds.filter fun x => x.status == .Completed).length,
             failed_count :=
               (r.compounds.filter fun x => x.status == .Failed).length,
             timed_out_count :=
               (r.compounds.filter fun x => x.status == .TimedOut).length,
             cancelled_count :=
               (r.compounds.filter fun x => x.status == .Cancelled).length } := by
    unfold AppData.check_run_completion
    rw [hctx]
    simp [hnone, hterm, hne]
  refine ⟨hfirst, ?_⟩
  have hfr : d.find_run rid = some r := by
    unfold AppData.find_run
    rw [hctx]
    rfl
  rw [checkAndMark_snd_some d rid now _ hfirst]
  refine check_none_of_completedAt _ rid
    { r with completed_at := some now } ?_ (by simp)
  rw [find_run_updateRun_self d rid
    (fun r => { r with completed_at := some now }) (fun r => rfl), hfr]
  rfl

/-- C4 witness: the theorem applied at a concrete two-compound run. -/
theorem c4_witness :
    freshData.check_run_completion 2 =
      some { run_id := freshRun.id, campaign_id := freshCampaign.id,
             run_name := freshRun.display_name,
             total_compounds := freshRun.compounds.length,
             completed_count :=
               (freshRun.compounds.filter fun x => x.status == .Completed).length,
             failed_count :=
               (freshRun.compounds.filter fun x => x.status == .Failed).length,
             timed_out_count :=
               (freshRun.compounds.filter fun x => x.status == .TimedOut).length,
             cancelled_count :=
               (freshRun.compounds.filter fun x => x.status == .Cancelled).length } ∧
    ((freshData.checkAndMarkRunCompletion 2 9).2).check_run_completion 2 = none :=
  c4_statement freshData 2 9 freshCampaign freshRun (by decide) (by decide)
    (by decide) (by decide)

/-- C5: a compound submitted at time `T` that has not reached a terminal
status (with a job id and a configured API key, compound ids unique) is
transitioned by the poller tick at `T + 2h + e` (`e > 0`) to `TimedOut`
with the fixed timeout message and a completion timestamp, while the tick
at `T + 1h59m` leaves the compound unchanged.  Only the tick's lock-held
timeout sweep mutates state here; the subsequent remote polls are
modelled separately (`pollCompoundStep`). -/
theorem c5_statement (d : AppData) (cid : Nat) (c : Compound) (k j : String)
    (T e : Int)
    (hnd : ((allCompounds d).map (fun x => x.id)).Nodup)
    (hk : d.api_key = some k) (hke : (k == "") = false)
    (hc : d.find_compound cid = some c)
    (hterm : c.status.is_terminal = false)
    (hjob : c.boltz_job_id = some j)
    (hsub : c.submitted_at = some T)
    (he : 0 < e) :
    (pollTickTimeoutPhase d (T + POLL_TIMEOUT_MS + e)).find_compound cid =
      some { c with status := .TimedOut,
                    completed_at := some (T + POLL_TIMEOUT_MS + e),
                    error_message := some timeoutMessage } ∧
    (pollTickTimeoutPhase d (T + 7140000)).find_compound cid = some c := by
  constructor
  · rw [pollTick_eq_active d (T + POLL_TIMEOUT_MS + e) k hk hke]
    show ((dedupFirst (((d.all_compounds_in_progress).filter fun r =>
        (T + POLL_TIMEOUT_MS + e) - r.submitted_at > POLL_TIMEOUT_MS).map
          fun r => r.run_id)).foldl
      (fun acc rid => (acc.checkAndMarkRunCompletion rid (T + POLL_TIMEOUT_MS + e)).2)
      (((d.all_compounds_in_progress).filter fun r =>
        (T + POLL_TIMEOUT_MS + e) - r.submitted_at > POLL_TIMEOUT_MS).foldl
        (fun acc r => acc.updateCompound r.compound_id
          (markTimedOut (T + POLL_TIMEOUT_MS + e))) d)).find_compound cid = _
    rw [find_compound_foldl_checkAndMark,
      find_foldl_updates (markTimedOut (T + POLL_TIMEOUT_MS + e))
        (fun x => rfl) (fun x => rfl)]
    obtain ⟨ref, href, hrefcid, hrefsub⟩ := refs_complete d c cid j T hc hterm hjob hsub
    have hmem : ref ∈ (d.all_compounds_in_progress).filter fun r =>
        (T + POLL_TIMEOUT_MS + e) - r.submitted_at > POLL_TIMEOUT_MS := by
      rw [List.mem_filter]
      refine ⟨href, ?_⟩
      rw [hrefsub]
      simp only [decide_eq_true_eq]
      omega
    have hany : (((d.all_compounds_in_progress).filter fun r =>
        (T + POLL_TIMEOUT_MS + e) - r.submitted_at > POLL_TIMEOUT_MS).any
          fun r => r.compound_id == cid) = true := by
      rw [List.any_eq_true]
      exact ⟨ref, hmem, by simp [hrefcid]⟩
    rw [if_pos hany, hc]
    rfl
  · rw [pollTick_eq_active d (T + 7140000) k hk hke]
    show ((dedupFirst (((d.all_compounds_in_progress).filter fun r =>
        (T + 7140000) - r.submitted_at > POLL_TIMEOUT_MS).map
          fun r => r.run_id)).foldl
      (fun acc rid => (acc.checkAndMarkRunCompletion rid (T + 7140000)).2)
      (((d.all_compounds_in_progress).filter fun r =>
        (T + 7140000) - r.submitted_at > POLL_TIMEOUT_MS).foldl
        (fun acc r => acc.updateCompound r.compound_id
          (markTimedOut (T + 7140000))) d)).find_compound cid = _
    rw [find_compound_foldl_checkAndMark,
      find_foldl_updates (markTimedOut (T + 7140000))
        (fun x => rfl) (fun x => rfl)]
    have hany : (((d.all_compounds_in_progress).filter fun r =>
        (T + 7140000) - r.submitted_at > POLL_TIMEOUT_MS).any
          fun r => r.compound_id == cid) = false := by
      rw [← Bool.not_eq_true, List.any_eq_true]
      rintro ⟨ref, hmem, hbeq⟩
      rw [List.mem_filter] at hmem
      obtain ⟨hmemrefs, hcond⟩ := hmem
      obtain ⟨x, hxmem, hxid, hxsub, hxterm⟩ := refs_sound d ref hmemrefs
      obtain ⟨camp, hcamp, run, hrun, hcmem, hcid⟩ := find_compound_mem d cid c hc
      have hcall : c ∈ allCompounds d :=
        mem_allCompounds_of_nested d c ⟨camp, hcamp, run, hrun, hcmem⟩
      have hxc : x = c := by
        refine List.inj_on_of_nodup_map hnd hxmem hcall ?_
        show x.id = c.id
        rw [hxid, hcid]
        simpa using hbeq
      rw [hxc, hsub] at hxsub
      simp only [Option.some.injEq] at hxsub
      rw [← hxsub] at hcond
      simp only [decide_eq_true_eq, POLL_TIMEOUT_MS] at hcond
      omega
    rw [if_neg (by simp [hany]), hc]

/-- C5 witness: the theorem applied at a concrete in-progress compound. -/
theorem c5_witness :
    (pollTickTimeoutPhase c5Data (100 + POLL_TIMEOUT_MS + 1)).find_compound 7 =
      some { c5Compound with status := .TimedOut,
                             completed_at := some (100 + POLL_TIMEOUT_MS + 1),
                             error_message := some timeoutMessage } ∧
    (pollTickTimeoutPhase c5Data (100 + 7140000)).find_compound 7 = some c5Compound :=
  c5_statement c5Data 7 c5Compound "key" "job-7" 100 1 (by decide) (by decide)
    (by decide) (by decide) (by decide) (by decide) (by decide) (by decide)

/-- C6: when the remote status upper-cases to COMPLETED but the metrics
payload has no affinity member, metrics parsing fails and the poll step
transitions the compound to `Failed` with the parse-error message — never
to `Completed`. -/
theorem c6_statement (d : AppData) (ref : CompoundRef) (p : PredictionStatus)
    (now : Int) (c : Compound)
    (r : PredictionResults) (o : PredictionOutput) (m : Json)
    (hs : toUpperStr p.prediction_status = "COMPLETED")
    (hr : p.prediction_results = some r) (ho : r.output = some o)
    (hm : o.metrics = some m) (ha : m.get "affinity" = none)
    (hc : d.find_compound ref.compound_id = some c) :
    (pollCompoundStep d ref p now).find_compound ref.compound_id =
      some { c with status := .Failed, completed_at := some now,
                    error_message :=
                      some "Failed to parse metrics: No affinity metrics" } ∧
    ((pollCompoundStep d ref p now).find_compound ref.compound_id).map
        Compound.status ≠ some JobStatus.Completed := by
  have hstep : pollCompoundStep d ref p now =
      (onCompoundFailed d ref .Failed
        ("Failed to parse metrics: " ++
          (AppError.Other "No affinity metrics").display) now).1 := by
    unfold pollCompoundStep
    rw [hs, parse_metrics_no_affinity p r o m hr ho hm ha]
    rfl
  have hfind : (pollCompoundStep d ref p now).find_compound ref.compound_id =
      some { c with status := .Failed, completed_at := some now,
                    error_message :=
                      some "Failed to parse metrics: No affinity metrics" } := by
    have hself := find_compound_updateCompound_self d ref.compound_id
      (fun x =>
        { x with
          status := JobStatus.Failed
          completed_at := some now
          error_message := some ("Failed to parse metrics: " ++
            (AppError.Other "No affinity metrics").display) })
      (fun x => rfl)
    rw [hstep, onCompoundFailed_fst, find_compound_checkAndMark, hself, hc]
    rfl
  refine ⟨hfind, ?_⟩
  rw [hfind]
  simp

/-- C6 witness: the theorem applied at a concrete prediction whose
metrics payload lacks the affinity key. -/
theorem c6_witness :
    (pollCompoundStep c5Data c6Ref c6Prediction 200).find_compound 7 =
      some { c5Compound with status := .Failed, completed_at := some 200,
                             error_message :=
                               some "Failed to parse metrics: No affinity metrics" } ∧
    ((pollCompoundStep c5Data c6Ref c6Prediction 200).find_compound 7).map
        Compound.status ≠ some JobStatus.Completed :=
  c6_statement c5Data c6Ref c6Prediction 200 c5Compound
    { status := some "ok", processing_time_ms := some 12,
      output := some
        { download_url := some "https://x/y.tar.gz",
          metrics := some (.obj [("sample_results", .arr [])]) } }
    { download_url := some "https://x/y.tar.gz",
      metrics := some (.obj [("sample_results", .arr [])]) }
    (.obj [("sample_results", .arr [])])
    (by decide) rfl rfl rfl rfl (by decide)

/-- C7: every failure exit of `download_and_store` (download, extraction,
validation, path resolution, directory creation, final move) only sets the
compound's separate download-error field: for every compound id the
status, completed_at, metrics and error_message projections of the store
are unchanged. -/
theorem c7_statement (d : AppData) (cid : Nat) (failure : DownloadFailure) :
    ((downloadAndStoreOnFailure d cid failure).find_compound cid =
      (d.find_compound cid).map fun c =>
        { c with download_error := some (downloadFailureMessage failure) }) ∧
    ∀ cid',
      ((downloadAndStoreOnFailure d cid failure).find_compound cid').map
          Compound.status = (d.find_compound cid').map Compound.status ∧
      ((downloadAndStoreOnFailure d cid failure).find_compound cid').map
          Compound.completed_at = (d.find_compound cid').map Compound.completed_at ∧
      ((downloadAndStoreOnFailure d cid failure).find_compound cid').map
          Compound.metrics = (d.find_compound cid').map Compound.metrics ∧
      ((downloadAndStoreOnFailure d cid failure).find_compound cid').map
          Compound.error_message = (d.find_compound cid').map Compound.error_message := by
  unfold downloadAndStoreOnFailure set_download_error
  refine ⟨find_compound_updateCompound_self d cid
    (fun c => { c with download_error := some (downloadFailureMessage failure) })
    (fun x => rfl), ?_⟩
  intro cid'
  by_cases he : cid' = cid
  · subst he
    rw [find_compound_updateCompound_self d cid'
      (fun c => { c with download_error := some (downloadFailureMessage failure) })
      (fun x => rfl)]
    cases d.find_compound cid' with
    | none => exact ⟨rfl, rfl, rfl, rfl⟩
    | some x => exact ⟨rfl, rfl, rfl, rfl⟩
  · rw [find_compound_updateCompound_ne d cid cid'
      (fun c => { c with download_error := some (downloadFailureMessage failure) })
      (fun x => rfl) he]
    exact ⟨rfl, rfl, rfl, rfl⟩

end Multiplexer
